import Mathlib

/-!
Shallow embedding of the BitDT codec (src/python/bitdt.py) and proofs of its
specified properties.  Python strings are modelled as `List Char`, Python's
unbounded `int` as `Int` (or `Nat` where every call site passes provably
nonnegative values), and Python functions that may raise as `Option`/`Except`
valued functions.
-/

/-- Python `str.find`: index of the first occurrence of `c` in `l`, or `-1`. -/
def strFind (l : List Char) (c : Char) : Int :=
  match l with
  | [] => -1
  | x :: xs => if x = c then 0 else (if strFind xs c = -1 then -1 else strFind xs c + 1)

theorem strFind_bounds (l : List Char) (c : Char) :
    strFind l c = -1 ∨ (0 ≤ strFind l c ∧ strFind l c < l.length) := by
  induction l with
  | nil => left; rfl
  | cons x xs ih =>
    by_cases hx : x = c
    · right
      simp [strFind, hx]
    · rcases ih with h | h
      · left; simp [strFind, hx, h]
      · right
        simp only [strFind, hx, if_false, List.length_cons]
        have : strFind xs c ≠ -1 := by omega
        simp only [this, if_false, if_neg hx]
        push_cast
        omega

theorem getD_eq_get {l : List Char} {i : Nat} (h : i < l.length) :
    l.getD i ' ' = l.get ⟨i, h⟩ := by
  simp [List.getD_eq_getElem?_getD, List.getElem?_eq_getElem h, List.get_eq_getElem]

theorem getD_mem {l : List Char} {i : Nat} (h : i < l.length) :
    l.getD i ' ' ∈ l := by
  rw [getD_eq_get h]
  exact List.get_mem l i h

theorem strFind_get {l : List Char} (hnd : l.Nodup) (i : Nat) (h : i < l.length) :
    strFind l (l.get ⟨i, h⟩) = i := by
  induction l generalizing i with
  | nil => simp at h
  | cons x xs ih =>
    rcases List.nodup_cons.mp hnd with ⟨hx, hxs⟩
    cases i with
    | zero => simp [strFind]
    | succ i =>
      have hlt : i < xs.length := by simpa using h
      have hget : (x :: xs).get ⟨i + 1, h⟩ = xs.get ⟨i, hlt⟩ := rfl
      rw [hget]
      have hne : x ≠ xs.get ⟨i, hlt⟩ := by
        intro hcontra
        exact hx (hcontra ▸ List.get_mem xs i hlt)
      have hih : strFind xs (xs.get ⟨i, hlt⟩) = i := ih hxs i hlt
      have : strFind xs (xs.get ⟨i, hlt⟩) ≠ -1 := by omega
      simp only [strFind, if_neg hne, this, if_false, hih]
      push_cast
      ring

theorem strFind_getD {l : List Char} (hnd : l.Nodup) (i : Nat) (h : i < l.length) :
    strFind l (l.getD i ' ') = i := by
  rw [getD_eq_get h]
  exact strFind_get hnd i h

theorem strFind_of_not_mem {l : List Char} {c : Char} (h : c ∉ l) : strFind l c = -1 := by
  induction l with
  | nil => rfl
  | cons x xs ih =>
    simp only [List.mem_cons, not_or] at h
    simp [strFind, Ne.symm h.1, ih h.2]

/-! ### ThousandCounter -/

/-- `ThousandCounter.FIRST_CHAR`. -/
def FIRST_CHAR : List Char := "BCDFGHJKLNPQRSTVWXYZbcdfghjklnpqrstvwxyz".data

/-- `ThousandCounter.SECOND_CHAR`. -/
def SECOND_CHAR : List Char := "ABCDEFGHIJKLMNOPQRTUVWXYZ".data

/-- `ThousandCounter.encode_milliseconds`; the raised `ValueError` is modelled
as `none`.  Python `//` and `%` are floor division/modulus, i.e. `Int.fdiv` and
`Int.fmod`. -/
def encode_milliseconds (millis : Int) : Option (List Char) :=
  if millis < 0 ∨ millis > 999 then none
  else
    let first_index := Int.fdiv millis 25
    let second_index := Int.fmod millis 25
    if first_index < 0 ∨ first_index ≥ (FIRST_CHAR.length : Int) ∨
        second_index < 0 ∨ second_index ≥ (SECOND_CHAR.length : Int) then none
    else some [FIRST_CHAR.getD first_index.toNat ' ', SECOND_CHAR.getD second_index.toNat ' ']

/-- `ThousandCounter.decode_milliseconds`. -/
def decode_milliseconds (code : List Char) : Int :=
  if code.length ≠ 2 then -1
  else
    let first_index := strFind FIRST_CHAR (code.getD 0 ' ')
    let second_index := strFind SECOND_CHAR (code.getD 1 ' ')
    if first_index = -1 ∨ second_index = -1 then -1
    else first_index * 25 + second_index

theorem FIRST_CHAR_nodup : FIRST_CHAR.Nodup := by decide

theorem SECOND_CHAR_nodup : SECOND_CHAR.Nodup := by decide

theorem FIRST_CHAR_length : FIRST_CHAR.length = 40 := by decide

theorem SECOND_CHAR_length : SECOND_CHAR.length = 25 := by decide

theorem decode_encode_millis_nat (n : Nat) (h : n ≤ 999) :
    decode_milliseconds [FIRST_CHAR.getD (n / 25) ' ', SECOND_CHAR.getD (n % 25) ' '] = n := by
  have h1 : n / 25 < FIRST_CHAR.length := by rw [FIRST_CHAR_length]; omega
  have h2 : n % 25 < SECOND_CHAR.length := by rw [SECOND_CHAR_length]; omega
  have f1 : strFind FIRST_CHAR (FIRST_CHAR.getD (n / 25) ' ') = n / 25 :=
    strFind_getD FIRST_CHAR_nodup _ h1
  have f2 : strFind SECOND_CHAR (SECOND_CHAR.getD (n % 25) ' ') = n % 25 :=
    strFind_getD SECOND_CHAR_nodup _ h2
  simp only [decode_milliseconds, List.length_cons, List.length_nil, List.getD_cons_zero,
    List.getD_cons_succ, f1, f2]
  rw [if_neg (by omega : ¬((0 : Nat) + 1 + 1 ≠ 2))]
  split
  · omega
  · omega

theorem encode_millis_eq (n : Nat) (h : n ≤ 999) :
    encode_milliseconds n = some [FIRST_CHAR.getD (n / 25) ' ', SECOND_CHAR.getD (n % 25) ' '] := by
  have hd : Int.fdiv (n : Int) 25 = ((n / 25 : Nat) : Int) := (Int.ofNat_fdiv n 25).symm
  have hm : Int.fmod (n : Int) 25 = ((n % 25 : Nat) : Int) := (Int.ofNat_fmod n 25).symm
  have hF : (FIRST_CHAR.length : Int) = 40 := by norm_num [FIRST_CHAR]
  have hS : (SECOND_CHAR.length : Int) = 25 := by norm_num [SECOND_CHAR]
  simp only [encode_milliseconds, hd, hm]
  rw [if_neg (by omega : ¬((n : Int) < 0 ∨ (n : Int) > 999)), if_neg (by omega)]
  simp only [Int.toNat_natCast]

/-- C5: for every millis in [0,999], decoding the encoding gives the value back,
and `encode_milliseconds` fails (the raised validation error, modelled as
`none`) for every input outside [0,999], in particular for -1 and 1000. -/
theorem thousand_counter_bijection :
    (∀ m : Int, 0 ≤ m → m ≤ 999 →
      ∃ code, encode_milliseconds m = some code ∧ decode_milliseconds code = m) ∧
    (∀ m : Int, m < 0 ∨ m > 999 → encode_milliseconds m = none) ∧
    encode_milliseconds (-1) = none ∧ encode_milliseconds 1000 = none := by
  refine ⟨?_, ?_, by decide, by decide⟩
  · intro m h0 h1
    obtain ⟨n, rfl⟩ : ∃ n : Nat, m = n := ⟨m.toNat, (Int.toNat_of_nonneg h0).symm⟩
    have hn : n ≤ 999 := by exact_mod_cast h1
    exact ⟨_, encode_millis_eq n hn, decode_encode_millis_nat n hn⟩
  · intro m hm
    unfold encode_milliseconds
    rw [if_pos hm]

/-- C5 witness: the round trip evaluated at millis = 123, and the out-of-range
rejection evaluated at millis = 5000. -/
theorem thousand_counter_bijection_witness :
    (∃ code, encode_milliseconds 123 = some code ∧ decode_milliseconds code = 123) ∧
    ((5000 : Int) < 0 ∨ (5000 : Int) > 999) ∧ encode_milliseconds 5000 = none :=
  ⟨thousand_counter_bijection.1 123 (by decide) (by decide),
   Or.inr (by decide),
   thousand_counter_bijection.2.1 5000 (Or.inr (by decide))⟩

/-- C10: `decode_milliseconds` is total: on every input it returns -1 or a value
in [0,999]; the bound comes from the alphabet sizes 40 and 25, and 999 = 39*25+24
is attained. -/
theorem decode_milliseconds_total :
    (∀ code : List Char,
      decode_milliseconds code = -1 ∨
        (0 ≤ decode_milliseconds code ∧ decode_milliseconds code ≤ 999)) ∧
    FIRST_CHAR.length = 40 ∧ SECOND_CHAR.length = 25 ∧
    decode_milliseconds ['z', 'Z'] = 999 := by
  refine ⟨?_, by decide, by decide, by decide⟩
  intro code
  by_cases hl : code.length ≠ 2
  · left; simp [decode_milliseconds, hl]
  · simp only [decode_milliseconds]
    rw [if_neg hl]
    rcases strFind_bounds FIRST_CHAR (code.getD 0 ' ') with h1 | h1
    · left; rw [if_pos (Or.inl h1)]
    · rcases strFind_bounds SECOND_CHAR (code.getD 1 ' ') with h2 | h2
      · left; rw [if_pos (Or.inr h2)]
      · right
        rw [if_neg (by omega : ¬(strFind FIRST_CHAR (code.getD 0 ' ') = -1 ∨
          strFind SECOND_CHAR (code.getD 1 ' ') = -1))]
        rw [FIRST_CHAR_length] at h1
        rw [SECOND_CHAR_length] at h2
        push_cast at h1 h2
        omega

/-! ### BitDT constants and data model -/

/-- `BitDT.MONTHS`. -/
def MONTHS : List Char := "ABCDEFGHIJKL".data

/-- `BitDT.DAYS`. -/
def DAYS : List Char := "ABCDEFGHIJKLMNOPQRSTUVWXYZ12345".data

/-- `BitDT.HOURS`. -/
def HOURS : List Char := "BCDEFGHJKLMNOPQRSTUVWXYZ".data

/-- `BitDT.MINUTES` (also used for seconds). -/
def MINUTES : List Char := "ABCDEFGHIJKLMNOPQRSTUVWXYZabcdefghijklmnopqrstuvwxyz12345678".data

/-- `BitDT.YEAR_CHARS`. -/
def YEAR_CHARS : List Char := "ABCDEFGHIJKLMNOPQRSTUVWXYZabcdefghijklmnopqrstuvwxyz123456789".data

/-- `BitDT.TIMEZONE_DIGITS`. -/
def TIMEZONE_DIGITS : List Char := "0123456789".data

def YEAR_MASK : Nat := 0xFFFFF00000000000
def MONTH_MASK : Nat := 0x00000F0000000000
def DAY_MASK : Nat := 0x000000F800000000
def HOUR_MASK : Nat := 0x00000007C0000000
def MINUTE_MASK : Nat := 0x000000003F000000
def SECOND_MASK : Nat := 0x0000000000FC0000
def MILLIS_MASK : Nat := 0x000000000003FF00

def TYPE_EMPTY : Nat := 0
def TYPE_FULL : Nat := 1
def TYPE_DATE_ONLY : Nat := 2
def TYPE_TIME_ONLY : Nat := 3
def TYPE_DATE_HOUR : Nat := 4

def EMPTY_VALUE : Nat := TYPE_EMPTY

/-- The `BitDT` value object: `{_packed_value, _timezone_offset, _date_type}`.
The packed value and date type are `Nat` since every constructor used by the
module produces nonnegative values. -/
structure BitDT where
  packed_value : Nat
  timezone_offset : Int
  date_type : Nat
deriving DecidableEq, Repr

/-- `BitDT._determine_date_type`. -/
def determine_date_type (year month day hour minute second millis : Nat) : Nat :=
  if year = 0 ∧ month = 0 ∧ day = 0 ∧ hour = 0 ∧ minute = 0 ∧ second = 0 ∧ millis = 0 then
    TYPE_EMPTY
  else if hour = 0 ∧ minute = 0 ∧ second = 0 ∧ millis = 0 then TYPE_DATE_ONLY
  else if year = 0 ∧ month = 0 ∧ day = 0 then TYPE_TIME_ONLY
  else if minute = 0 ∧ second = 0 ∧ millis = 0 ∧ hour ≠ 0 then TYPE_DATE_HOUR
  else TYPE_FULL

/-- `BitDTEpoch.BASE36_CHARS` (also gives the decimal digits '0'-'9'). -/
def BASE36_CHARS : List Char := "0123456789ABCDEFGHIJKLMNOPQRSTUVWXYZ".data

/-- Digit value of a character for Python `int(s, base)`: its position in the
base-36 alphabet after upper-casing, or -1 when it is not a digit. -/
def digitVal (c : Char) : Int := strFind BASE36_CHARS c.toUpper

/-- Digits-only part of Python's built-in `int(s, base)`. -/
def parseDigits (s : List Char) (base : Nat) : Option Int :=
  if s = [] then none
  else s.foldlM (fun acc c =>
    if 0 ≤ digitVal c ∧ digitVal c < (base : Int) then some (acc * base + digitVal c)
    else none) 0

/-- Model of Python's built-in `int(s, base)` for `2 ≤ base ≤ 36`, restricted to
an optional sign followed by digits (no whitespace, underscores or `0x`-prefixes,
none of which can reach the conversions this module performs on the strings it
accepts); `none` models the raised `ValueError`. -/
def pyInt (s : List Char) (base : Nat) : Option Int :=
  match s with
  | '-' :: rest => (parseDigits rest base).map (fun v => -v)
  | '+' :: rest => parseDigits rest base
  | _ => parseDigits s base

/-- `BitDT._parse_timezone_offset`.  Python's `int(total_minutes / 15)` truncates
toward zero, i.e. `Int.tdiv`; the `ValueError` of a failed `int(...)` is caught
and turned into 0. -/
def parse_timezone_offset (timezone : Option (List Char)) : Int :=
  match timezone with
  | none => 0
  | some tz =>
    if tz = [] then 0
    else if tz = ['+'] ∨ tz = ['-'] then 0
    else
      let hm : Option (Int × Int) :=
        if tz.length = 3 then
          (pyInt ((tz.drop 1).take 2) 10).map fun h => (h, 0)
        else if tz.length = 5 then
          (pyInt ((tz.drop 1).take 2) 10).bind fun h =>
            (pyInt ((tz.drop 3).take 2) 10).map fun m => (h, m)
        else if tz.length = 6 ∧ tz.getD 3 ' ' = ':' then
          (pyInt ((tz.drop 1).take 2) 10).bind fun h =>
            (pyInt ((tz.drop 4).take 2) 10).map fun m => (h, m)
        else some (0, 0)
      match hm with
      | none => 0
      | some (h, m) =>
        let total := h * 60 + m
        let total := if tz.headD ' ' = '-' then -total else total
        Int.tdiv total 15

/-- Structural helper for `decDigits`: the first argument is fuel, always
called with enough of it. -/
def decDigitsCore : Nat → Nat → List Char
  | 0, _ => []
  | fuel + 1, n =>
    if n = 0 then []
    else decDigitsCore fuel (n / 10) ++ [BASE36_CHARS.getD (n % 10) ' ']

/-- Decimal digit string of a positive integer (Python `str(n)` without the
zero case), most significant digit first. -/
def decDigits (n : Nat) : List Char := decDigitsCore (n + 1) n

/-- Python `f"{n:02d}"` for a nonnegative integer: decimal, zero-padded to
width 2. -/
def pad2 (n : Nat) : List Char :=
  if n = 0 then ['0', '0']
  else if n < 10 then '0' :: decDigits n
  else decDigits n

/-- `BitDT._format_timezone_offset`. -/
def format_timezone_offset (offset : Int) : Option (List Char) :=
  if offset = 0 then none
  else
    let total_minutes := offset * 15
    let hours := total_minutes.natAbs / 60
    let minutes := total_minutes.natAbs % 60
    let sign := if total_minutes ≥ 0 then '+' else '-'
    if minutes = 0 then some (sign :: pad2 hours)
    else some (sign :: (pad2 hours ++ pad2 minutes))

/-- `BitDT.from_primitives`.  The components are `Nat` because every call site
in the module passes nonnegative values; Python `|` and `<<` on nonnegative
ints are `Nat.lor` and `Nat.shiftLeft`. -/
def from_primitives (year month day hour minute second millis : Nat)
    (timezone : Option (List Char)) : BitDT :=
  let date_type := determine_date_type year month day hour minute second millis
  let packed := ((((((year <<< 44 ||| month <<< 40) ||| day <<< 35) ||| hour <<< 30) |||
      minute <<< 24) ||| second <<< 18) ||| millis <<< 8) ||| date_type
  ⟨packed, parse_timezone_offset timezone, date_type⟩

/-- `BitDT.create_empty`. -/
def create_empty : BitDT := ⟨EMPTY_VALUE, 0, TYPE_EMPTY⟩

/-- `BitDT.get_year`. -/
def get_year (dt : BitDT) : Int :=
  if dt.date_type = TYPE_EMPTY ∨ dt.date_type = TYPE_TIME_ONLY then -1
  else ((dt.packed_value &&& YEAR_MASK) >>> 44 : Nat)

/-- `BitDT.get_month`. -/
def get_month (dt : BitDT) : Int :=
  if dt.date_type = TYPE_EMPTY ∨ dt.date_type = TYPE_TIME_ONLY then -1
  else ((dt.packed_value &&& MONTH_MASK) >>> 40 : Nat)

/-- `BitDT.get_day`. -/
def get_day (dt : BitDT) : Int :=
  if dt.date_type = TYPE_EMPTY ∨ dt.date_type = TYPE_TIME_ONLY then -1
  else ((dt.packed_value &&& DAY_MASK) >>> 35 : Nat)

/-- `BitDT.get_hour`. -/
def get_hour (dt : BitDT) : Int :=
  if dt.date_type = TYPE_EMPTY ∨ dt.date_type = TYPE_DATE_ONLY then -1
  else ((dt.packed_value &&& HOUR_MASK) >>> 30 : Nat)

/-- `BitDT.get_minute`. -/
def get_minute (dt : BitDT) : Int :=
  if dt.date_type = TYPE_EMPTY ∨ dt.date_type = TYPE_DATE_ONLY then -1
  else if dt.date_type = TYPE_DATE_HOUR then 0
  else ((dt.packed_value &&& MINUTE_MASK) >>> 24 : Nat)

/-- `BitDT.get_second`. -/
def get_second (dt : BitDT) : Int :=
  if dt.date_type = TYPE_EMPTY ∨ dt.date_type = TYPE_DATE_ONLY then -1
  else if dt.date_type = TYPE_DATE_HOUR then 0
  else ((dt.packed_value &&& SECOND_MASK) >>> 18 : Nat)

/-- `BitDT.get_millis`. -/
def get_millis (dt : BitDT) : Int :=
  if dt.date_type = TYPE_EMPTY ∨ dt.date_type = TYPE_DATE_ONLY then -1
  else if dt.date_type = TYPE_DATE_HOUR then 0
  else ((dt.packed_value &&& MILLIS_MASK) >>> 8 : Nat)

/-- `BitDT.get_timezone`. -/
def get_timezone (dt : BitDT) : Option (List Char) :=
  format_timezone_offset dt.timezone_offset

/-- `BitDT.is_empty`. -/
def is_empty (dt : BitDT) : Bool := dt.date_type == TYPE_EMPTY

/-- `BitDT.compare_to`. -/
def compare_to (a b : BitDT) : Int :=
  if a.packed_value < b.packed_value then -1
  else if a.packed_value > b.packed_value then 1
  else 0

/-! ### Bit-packing arithmetic -/

theorem or_eq_add {a b k : Nat} (ha : 2 ^ k ∣ a) (hb : b < 2 ^ k) : a ||| b = a + b := by
  obtain ⟨c, rfl⟩ := ha
  rw [← Nat.mul_add_lt_is_or hb c]

theorem and_shiftRight (a b i : Nat) : (a &&& b) >>> i = (a >>> i) &&& (b >>> i) :=
  Nat.eq_of_testBit_eq (by
    intro j
    simp [Nat.testBit_shiftRight, Nat.testBit_and])

theorem shiftLeft_shiftRight (x i : Nat) : (x <<< i) >>> i = x :=
  Nat.eq_of_testBit_eq (by
    intro j
    simp [Nat.testBit_shiftRight, Nat.testBit_shiftLeft])

theorem extract_bits (x s w : Nat) :
    (x &&& ((2 ^ w - 1) <<< s)) >>> s = x / 2 ^ s % 2 ^ w := by
  rw [and_shiftRight, shiftLeft_shiftRight, Nat.and_pow_two_sub_one_eq_mod,
    Nat.shiftRight_eq_div_pow]

theorem extract_field (hi f lo s w : Nat) (hf : f < 2 ^ w) (hlo : lo < 2 ^ s) :
    (hi * 2 ^ (s + w) + f * 2 ^ s + lo) / 2 ^ s % 2 ^ w = f := by
  have hrw : hi * 2 ^ (s + w) + f * 2 ^ s + lo = 2 ^ s * (hi * 2 ^ w + f) + lo := by
    rw [pow_add]; ring
  rw [hrw, Nat.mul_add_div (by positivity), Nat.div_eq_of_lt hlo, Nat.add_zero,
    Nat.mul_add_mod', Nat.mod_eq_of_lt hf]

theorem packed_decomp (year month day hour minute second millis t : Nat)
    (hy : year < 2 ^ 20) (hm : month < 2 ^ 4) (hd : day < 2 ^ 5) (hh : hour < 2 ^ 5)
    (hmi : minute < 2 ^ 6) (hs : second < 2 ^ 6) (hms : millis < 2 ^ 10) (ht : t < 2 ^ 8) :
    ((((((year <<< 44 ||| month <<< 40) ||| day <<< 35) ||| hour <<< 30) |||
        minute <<< 24) ||| second <<< 18) ||| millis <<< 8) ||| t =
      year * 2 ^ 44 + month * 2 ^ 40 + day * 2 ^ 35 + hour * 2 ^ 30 +
        minute * 2 ^ 24 + second * 2 ^ 18 + millis * 2 ^ 8 + t := by
  rw [Nat.shiftLeft_eq, Nat.shiftLeft_eq, Nat.shiftLeft_eq, Nat.shiftLeft_eq,
    Nat.shiftLeft_eq, Nat.shiftLeft_eq, Nat.shiftLeft_eq]
  have e1 : year * 2 ^ 44 ||| month * 2 ^ 40 = year * 2 ^ 44 + month * 2 ^ 40 :=
    or_eq_add (k := 44) ⟨year, by ring⟩ (by norm_num at hm ⊢; omega)
  rw [e1]
  have e2 : year * 2 ^ 44 + month * 2 ^ 40 ||| day * 2 ^ 35 =
      year * 2 ^ 44 + month * 2 ^ 40 + day * 2 ^ 35 :=
    or_eq_add (k := 40) ⟨year * 2 ^ 4 + month, by ring⟩ (by norm_num at hd ⊢; omega)
  rw [e2]
  have e3 : year * 2 ^ 44 + month * 2 ^ 40 + day * 2 ^ 35 ||| hour * 2 ^ 30 =
      year * 2 ^ 44 + month * 2 ^ 40 + day * 2 ^ 35 + hour * 2 ^ 30 :=
    or_eq_add (k := 35) ⟨year * 2 ^ 9 + month * 2 ^ 5 + day, by ring⟩
      (by norm_num at hh ⊢; omega)
  rw [e3]
  have e4 : year * 2 ^ 44 + month * 2 ^ 40 + day * 2 ^ 35 + hour * 2 ^ 30 |||
        minute * 2 ^ 24 =
      year * 2 ^ 44 + month * 2 ^ 40 + day * 2 ^ 35 + hour * 2 ^ 30 + minute * 2 ^ 24 :=
    or_eq_add (k := 30) ⟨year * 2 ^ 14 + month * 2 ^ 10 + day * 2 ^ 5 + hour, by ring⟩
      (by norm_num at hmi ⊢; omega)
  rw [e4]
  have e5 : year * 2 ^ 44 + month * 2 ^ 40 + day * 2 ^ 35 + hour * 2 ^ 30 +
        minute * 2 ^ 24 ||| second * 2 ^ 18 =
      year * 2 ^ 44 + month * 2 ^ 40 + day * 2 ^ 35 + hour * 2 ^ 30 +
        minute * 2 ^ 24 + second * 2 ^ 18 :=
    or_eq_add (k := 24)
      ⟨year * 2 ^ 20 + month * 2 ^ 16 + day * 2 ^ 11 + hour * 2 ^ 6 + minute, by ring⟩
      (by norm_num at hs ⊢; omega)
  rw [e5]
  have e6 : year * 2 ^ 44 + month * 2 ^ 40 + day * 2 ^ 35 + hour * 2 ^ 30 +
        minute * 2 ^ 24 + second * 2 ^ 18 ||| millis * 2 ^ 8 =
      year * 2 ^ 44 + month * 2 ^ 40 + day * 2 ^ 35 + hour * 2 ^ 30 +
        minute * 2 ^ 24 + second * 2 ^ 18 + millis * 2 ^ 8 :=
    or_eq_add (k := 18)
      ⟨year * 2 ^ 26 + month * 2 ^ 22 + day * 2 ^ 17 + hour * 2 ^ 12 +
        minute * 2 ^ 6 + second, by ring⟩
      (by norm_num at hms ⊢; omega)
  rw [e6]
  exact or_eq_add (k := 8)
    ⟨year * 2 ^ 36 + month * 2 ^ 32 + day * 2 ^ 27 + hour * 2 ^ 22 +
      minute * 2 ^ 16 + second * 2 ^ 10 + millis, by ring⟩ ht

/-- Arithmetic (sum) form of the packed value, used to reason about the
bit-packed fields. -/
def packedSum (year month day hour minute second millis t : Nat) : Nat :=
  year * 2 ^ 44 + month * 2 ^ 40 + day * 2 ^ 35 + hour * 2 ^ 30 +
    minute * 2 ^ 24 + second * 2 ^ 18 + millis * 2 ^ 8 + t

theorem determine_date_type_le (year month day hour minute second millis : Nat) :
    determine_date_type year month day hour minute second millis ≤ 4 := by
  simp only [determine_date_type, TYPE_EMPTY, TYPE_DATE_ONLY, TYPE_TIME_ONLY,
    TYPE_DATE_HOUR, TYPE_FULL]
  split_ifs <;> omega

theorem from_primitives_packed (year month day hour minute second millis : Nat)
    (tz : Option (List Char))
    (hy : year ≤ 226980) (hm : month ≤ 11) (hd : day ≤ 31) (hh : hour ≤ 23)
    (hmi : minute ≤ 59) (hs : second ≤ 59) (hms : millis ≤ 999) :
    (from_primitives year month day hour minute second millis tz).packed_value =
      packedSum year month day hour minute second millis
        (determine_date_type year month day hour minute second millis) := by
  have ht := determine_date_type_le year month day hour minute second millis
  simp only [from_primitives, packedSum]
  exact packed_decomp _ _ _ _ _ _ _ _ (by norm_num; omega) (by norm_num; omega)
    (by norm_num; omega) (by norm_num; omega) (by norm_num; omega) (by norm_num; omega)
    (by norm_num; omega) (by norm_num; omega)

theorem from_primitives_date_type (year month day hour minute second millis : Nat)
    (tz : Option (List Char)) :
    (from_primitives year month day hour minute second millis tz).date_type =
      determine_date_type year month day hour minute second millis := rfl

theorem from_primitives_tz (year month day hour minute second millis : Nat)
    (tz : Option (List Char)) :
    (from_primitives year month day hour minute second millis tz).timezone_offset =
      parse_timezone_offset tz := rfl

section
variable (year month day hour minute second millis t : Nat)

theorem packedSum_year (hy : year ≤ 226980) (hm : month ≤ 11) (hd : day ≤ 31)
    (hh : hour ≤ 23) (hmi : minute ≤ 59) (hs : second ≤ 59) (hms : millis ≤ 999)
    (ht : t ≤ 4) :
    (packedSum year month day hour minute second millis t &&& YEAR_MASK) >>> 44 = year := by
  rw [show YEAR_MASK = (2 ^ 20 - 1) <<< 44 by decide, extract_bits,
    show packedSum year month day hour minute second millis t =
      0 * 2 ^ (44 + 20) + year * 2 ^ 44 + (month * 2 ^ 40 + day * 2 ^ 35 + hour * 2 ^ 30 +
        minute * 2 ^ 24 + second * 2 ^ 18 + millis * 2 ^ 8 + t) by simp [packedSum]; ring]
  exact extract_field _ _ _ _ _ (by norm_num; omega) (by norm_num; omega)

theorem packedSum_month (hy : year ≤ 226980) (hm : month ≤ 11) (hd : day ≤ 31)
    (hh : hour ≤ 23) (hmi : minute ≤ 59) (hs : second ≤ 59) (hms : millis ≤ 999)
    (ht : t ≤ 4) :
    (packedSum year month day hour minute second millis t &&& MONTH_MASK) >>> 40 = month := by
  rw [show MONTH_MASK = (2 ^ 4 - 1) <<< 40 by decide, extract_bits,
    show packedSum year month day hour minute second millis t =
      year * 2 ^ (40 + 4) + month * 2 ^ 40 + (day * 2 ^ 35 + hour * 2 ^ 30 +
        minute * 2 ^ 24 + second * 2 ^ 18 + millis * 2 ^ 8 + t) by simp [packedSum]; ring]
  exact extract_field _ _ _ _ _ (by norm_num; omega) (by norm_num; omega)

theorem packedSum_day (hy : year ≤ 226980) (hm : month ≤ 11) (hd : day ≤ 31)
    (hh : hour ≤ 23) (hmi : minute ≤ 59) (hs : second ≤ 59) (hms : millis ≤ 999)
    (ht : t ≤ 4) :
    (packedSum year month day hour minute second millis t &&& DAY_MASK) >>> 35 = day := by
  rw [show DAY_MASK = (2 ^ 5 - 1) <<< 35 by decide, extract_bits,
    show packedSum year month day hour minute second millis t =
      (year * 2 ^ 4 + month) * 2 ^ (35 + 5) + day * 2 ^ 35 + (hour * 2 ^ 30 +
        minute * 2 ^ 24 + second * 2 ^ 18 + millis * 2 ^ 8 + t) by simp [packedSum]; ring]
  exact extract_field _ _ _ _ _ (by norm_num; omega) (by norm_num; omega)

theorem packedSum_hour (hy : year ≤ 226980) (hm : month ≤ 11) (hd : day ≤ 31)
    (hh : hour ≤ 23) (hmi : minute ≤ 59) (hs : second ≤ 59) (hms : millis ≤ 999)
    (ht : t ≤ 4) :
    (packedSum year month day hour minute second millis t &&& HOUR_MASK) >>> 30 = hour := by
  rw [show HOUR_MASK = (2 ^ 5 - 1) <<< 30 by decide, extract_bits,
    show packedSum year month day hour minute second millis t =
      (year * 2 ^ 9 + month * 2 ^ 5 + day) * 2 ^ (30 + 5) + hour * 2 ^ 30 +
        (minute * 2 ^ 24 + second * 2 ^ 18 + millis * 2 ^ 8 + t) by
      simp [packedSum]; ring]
  exact extract_field _ _ _ _ _ (by norm_num; omega) (by norm_num; omega)

theorem packedSum_minute (hy : year ≤ 226980) (hm : month ≤ 11) (hd : day ≤ 31)
    (hh : hour ≤ 23) (hmi : minute ≤ 59) (hs : second ≤ 59) (hms : millis ≤ 999)
    (ht : t ≤ 4) :
    (packedSum year month day hour minute second millis t &&& MINUTE_MASK) >>> 24 = minute := by
  rw [show MINUTE_MASK = (2 ^ 6 - 1) <<< 24 by decide, extract_bits,
    show packedSum year month day hour minute second millis t =
      (year * 2 ^ 14 + month * 2 ^ 10 + day * 2 ^ 5 + hour) * 2 ^ (24 + 6) +
        minute * 2 ^ 24 + (second * 2 ^ 18 + millis * 2 ^ 8 + t) by
      simp [packedSum]; ring]
  exact extract_field _ _ _ _ _ (by norm_num; omega) (by norm_num; omega)

theorem packedSum_second (hy : year ≤ 226980) (hm : month ≤ 11) (hd : day ≤ 31)
    (hh : hour ≤ 23) (hmi : minute ≤ 59) (hs : second ≤ 59) (hms : millis ≤ 999)
    (ht : t ≤ 4) :
    (packedSum year month day hour minute second millis t &&& SECOND_MASK) >>> 18 = second := by
  rw [show SECOND_MASK = (2 ^ 6 - 1) <<< 18 by decide, extract_bits,
    show packedSum year month day hour minute second millis t =
      (year * 2 ^ 20 + month * 2 ^ 16 + day * 2 ^ 11 + hour * 2 ^ 6 + minute) * 2 ^ (18 + 6) +
        second * 2 ^ 18 + (millis * 2 ^ 8 + t) by
      simp [packedSum]; ring]
  exact extract_field _ _ _ _ _ (by norm_num; omega) (by norm_num; omega)

theorem packedSum_millis (hy : year ≤ 226980) (hm : month ≤ 11) (hd : day ≤ 31)
    (hh : hour ≤ 23) (hmi : minute ≤ 59) (hs : second ≤ 59) (hms : millis ≤ 999)
    (ht : t ≤ 4) :
    (packedSum year month day hour minute second millis t &&& MILLIS_MASK) >>> 8 = millis := by
  rw [show MILLIS_MASK = (2 ^ 10 - 1) <<< 8 by decide, extract_bits,
    show packedSum year month day hour minute second millis t =
      (year * 2 ^ 26 + month * 2 ^ 22 + day * 2 ^ 17 + hour * 2 ^ 12 + minute * 2 ^ 6 +
        second) * 2 ^ (8 + 10) + millis * 2 ^ 8 + t by
      simp [packedSum]; ring]
  exact extract_field _ _ _ _ _ (by norm_num; omega) (by norm_num; omega)

end

/-! ### Zero-run compression -/

/-- `BitDT._encode_zero_run`. -/
def encode_zero_run (zero_count : Nat) : List Char :=
  if zero_count = 1 then ['0']
  else if zero_count = 2 then ['.']
  else if zero_count = 3 then [':']
  else if zero_count = 4 then [';']
  else if zero_count = 5 then ['?']
  else if zero_count = 6 then ['!']
  else if zero_count = 7 then ['&']
  else '&' :: List.replicate (zero_count - 7) '0'

/-- Loop of `BitDT._compress_zeros`; `zc` is the pending zero-run length. -/
def compressAux : List Char → Nat → List Char
  | [], zc => if zc > 0 then encode_zero_run zc else []
  | c :: rest, zc =>
    if c = '0' then compressAux rest (zc + 1)
    else (if zc > 0 then encode_zero_run zc else []) ++ c :: compressAux rest 0

/-- `BitDT._compress_zeros`. -/
def compress_zeros (fields : List Char) : List Char := compressAux fields 0

/-- Expansion of a single character in `BitDT._expand_zeros`. -/
def expandChar (c : Char) : List Char :=
  if c = '0' then ['0']
  else if c = '.' then List.replicate 2 '0'
  else if c = ':' then List.replicate 3 '0'
  else if c = ';' then List.replicate 4 '0'
  else if c = '?' then List.replicate 5 '0'
  else if c = '!' then List.replicate 6 '0'
  else if c = '&' then List.replicate 7 '0'
  else [c]

/-- `BitDT._expand_zeros`. -/
def expand_zeros (compressed : List Char) : List Char :=
  (compressed.map expandChar).flatten

/-- The sentinel `'0'` together with every field alphabet: the character set the
compression invariant quantifies over. -/
def allFieldChars : List Char :=
  '0' :: (YEAR_CHARS ++ MONTHS ++ DAYS ++ HOURS ++ MINUTES ++ FIRST_CHAR ++ SECOND_CHAR)

theorem expand_zeros_append (a b : List Char) :
    expand_zeros (a ++ b) = expand_zeros a ++ expand_zeros b := by
  simp [expand_zeros]

theorem expand_zeros_cons (c : Char) (t : List Char) :
    expand_zeros (c :: t) = expandChar c ++ expand_zeros t := by
  simp [expand_zeros]

theorem expand_zeros_replicate_zero (n : Nat) :
    expand_zeros (List.replicate n '0') = List.replicate n '0' := by
  induction n with
  | zero => rfl
  | succ n ih =>
    rw [List.replicate_succ, expand_zeros_cons, ih]
    rfl

theorem expand_encode_zero_run (k : Nat) (hk : 1 ≤ k) :
    expand_zeros (encode_zero_run k) = List.replicate k '0' := by
  unfold encode_zero_run
  split_ifs with h1 h2 h3 h4 h5 h6 h7
  · subst h1; decide
  · subst h2; decide
  · subst h3; decide
  · subst h4; decide
  · subst h5; decide
  · subst h6; decide
  · subst h7; decide
  · rw [expand_zeros_cons, expand_zeros_replicate_zero,
      show expandChar '&' = List.replicate 7 '0' from rfl, ← List.replicate_add]
    congr 1
    omega

theorem compressAux_replicate (k zc : Nat) :
    compressAux (List.replicate k '0') zc =
      if zc + k > 0 then encode_zero_run (zc + k) else [] := by
  induction k generalizing zc with
  | zero => simp [compressAux]
  | succ k ih =>
    rw [List.replicate_succ]
    show compressAux ('0' :: List.replicate k '0') zc = _
    rw [compressAux, if_pos rfl, ih]
    have : zc + 1 + k = zc + (k + 1) := by omega
    rw [this]

set_option maxRecDepth 4096 in
theorem expandChar_of_field {c : Char} (hc : c ∈ allFieldChars) (h0 : c ≠ '0') :
    expandChar c = [c] := by
  have hall : ∀ x ∈ allFieldChars, x = '0' ∨ expandChar x = [x] := by decide
  rcases hall c hc with h | h
  · exact absurd h h0
  · exact h

theorem compressAux_expand (s : List Char) (hs : ∀ c ∈ s, c ∈ allFieldChars) :
    ∀ zc : Nat, expand_zeros (compressAux s zc) = List.replicate zc '0' ++ s := by
  induction s with
  | nil =>
    intro zc
    rw [compressAux]
    by_cases hz : zc > 0
    · rw [if_pos hz, expand_encode_zero_run zc hz, List.append_nil]
    · have : zc = 0 := by omega
      subst this
      rfl
  | cons c rest ih =>
    intro zc
    have hc : c ∈ allFieldChars := hs c (List.mem_cons_self c rest)
    have hrest : ∀ x ∈ rest, x ∈ allFieldChars := fun x hx => hs x (List.mem_cons_of_mem c hx)
    by_cases h0 : c = '0'
    · subst h0
      rw [compressAux, if_pos rfl, ih hrest (zc + 1), List.replicate_succ']
      simp
    · rw [compressAux, if_neg h0, expand_zeros_append, expand_zeros_cons,
        expandChar_of_field hc h0, ih hrest 0]
      by_cases hz : zc > 0
      · rw [if_pos hz, expand_encode_zero_run zc hz]
        simp
      · have : zc = 0 := by omega
        subst this
        simp [expand_zeros]

/-- C6: expansion inverts compression on every string over the sentinel and the
field alphabets; a run of L > 7 zeros compresses to `'&'` followed by L-7
literal zeros, and `'&'` expands to exactly 7 zeros. -/
theorem compress_expand_round_trip :
    (∀ s : List Char, (∀ c ∈ s, c ∈ allFieldChars) →
      expand_zeros (compress_zeros s) = s) ∧
    (∀ L : Nat, L > 7 →
      compress_zeros (List.replicate L '0') = '&' :: List.replicate (L - 7) '0') ∧
    expand_zeros ['&'] = List.replicate 7 '0' := by
  refine ⟨?_, ?_, by decide⟩
  · intro s hs
    rw [compress_zeros, compressAux_expand s hs 0]
    rfl
  · intro L hL
    rw [compress_zeros, compressAux_replicate, if_pos (by omega : 0 + L > 0), Nat.zero_add,
      encode_zero_run, if_neg (by omega), if_neg (by omega), if_neg (by omega),
      if_neg (by omega), if_neg (by omega), if_neg (by omega), if_neg (by omega)]

/-- C6 witness: the invariants evaluated at a concrete string and at L = 9. -/
theorem compress_expand_round_trip_witness :
    expand_zeros (compress_zeros "ABCA0000".data) = "ABCA0000".data ∧
    compress_zeros (List.replicate 9 '0') = '&' :: List.replicate 2 '0' :=
  ⟨compress_expand_round_trip.1 "ABCA0000".data (by decide),
   compress_expand_round_trip.2.1 9 (by decide)⟩

/-! ### Year codec and timezone affix -/

/-- `BitDT.encode_year`; the raised `ValueError` is `none`. -/
def encode_year (year : Int) : Option (List Char) :=
  if year < 0 ∨ year ≥ 226981 then none
  else
    let y := year.toNat
    some [YEAR_CHARS.getD (y / (61 * 61)) ' ', YEAR_CHARS.getD (y / 61 % 61) ' ',
      YEAR_CHARS.getD (y % 61) ' ']

/-- `BitDT.decode_year`. -/
def decode_year (year_code : List Char) : Int :=
  if year_code.length ≠ 3 then -1
  else
    let idx1 := strFind YEAR_CHARS (year_code.getD 0 ' ')
    let idx2 := strFind YEAR_CHARS (year_code.getD 1 ' ')
    let idx3 := strFind YEAR_CHARS (year_code.getD 2 ' ')
    if idx1 = -1 ∨ idx2 = -1 ∨ idx3 = -1 then -1
    else idx1 * 61 * 61 + idx2 * 61 + idx3

/-- `BitDT._is_valid_timezone`. -/
def is_valid_timezone (timezone : List Char) : Bool :=
  if timezone.length < 2 then false
  else
    match timezone with
    | [] => false
    | sign :: digits =>
      if sign ≠ '+' ∧ sign ≠ '-' then false
      else if digits = [] then true
      else if digits.all (fun c => TIMEZONE_DIGITS.contains c) then
        decide (digits.length = 2 ∨ digits.length = 4)
      else false

/-- The right-to-left scan loop of `BitDT._parse_timezone`; the argument is one
past the next index to inspect. -/
def scanTz (s : List Char) : Nat → Option (List Char)
  | 0 => none
  | i + 1 =>
    let c := s.getD i ' '
    if c = '+' ∨ c = '-' then
      let timezone_part := s.drop i
      if is_valid_timezone timezone_part then some timezone_part
      else scanTz s i
    else scanTz s i

/-- `BitDT._parse_timezone`. -/
def parse_timezone (bit_dt : List Char) : Option (List Char) :=
  if bit_dt.length < 2 then none
  else
    let last_char := bit_dt.getD (bit_dt.length - 1) ' '
    if last_char = '+' ∨ last_char = '-' then some [last_char]
    else scanTz bit_dt bit_dt.length

/-- `BitDT._extract_datetime_part` (its `None`-input case is handled by the
caller before this point). -/
def extract_datetime_part (bit_dt : List Char) : List Char :=
  match parse_timezone bit_dt with
  | some timezone => bit_dt.take (bit_dt.length - timezone.length)
  | none => bit_dt

/-- `BitDT._is_valid_encoded_char`. -/
def is_valid_encoded_char (c : Char) : Bool :=
  YEAR_CHARS.contains c || MONTHS.contains c || DAYS.contains c || HOURS.contains c ||
    MINUTES.contains c || "0.:;?!&".data.contains c

/-! ### TextCodec encode -/

/-- Body of `BitDT.encode_date_time`; `none` is a raised validation error,
which the enclosing `try/except` of the source converts to `"&"`. -/
def encode_date_time_core (year month day hour minute second millis : Option Int)
    (timezone : Option (List Char)) : Option (List Char) := do
  let year_code : List Char ←
    match year with
    | some y => if y ≥ 0 then encode_year y else some ['0']
    | none => some ['0']
  let month_char : Char ←
    match month with
    | some m =>
      if m ≥ 0 then
        if m < 0 ∨ m ≥ (MONTHS.length : Int) then none
        else some (MONTHS.getD m.toNat ' ')
      else some '0'
    | none => some '0'
  let day_char : Char ←
    match day with
    | some d =>
      if d ≥ 1 then
        if d < 1 ∨ d > (DAYS.length : Int) then none
        else some (DAYS.getD (d - 1).toNat ' ')
      else some '0'
    | none => some '0'
  let hour_char : Char ←
    match hour with
    | some h =>
      if h ≥ 0 then
        if h < 0 ∨ h ≥ (HOURS.length : Int) then none
        else some (HOURS.getD h.toNat ' ')
      else some '0'
    | none => some '0'
  let minute_char : Char ←
    match minute with
    | some mi =>
      if mi ≥ 0 then
        if mi < 0 ∨ mi ≥ (MINUTES.length : Int) then none
        else some (MINUTES.getD mi.toNat ' ')
      else some '0'
    | none => some '0'
  let second_char : Char ←
    match second with
    | some sc =>
      if sc ≥ 0 then
        if sc < 0 ∨ sc ≥ (MINUTES.length : Int) then none
        else some (MINUTES.getD sc.toNat ' ')
      else some '0'
    | none => some '0'
  let millis_code : List Char ←
    match millis with
    | some ms =>
      if ms ≥ 0 then
        if ms = 0 then some ['0'] else encode_milliseconds ms
      else some ['0']
    | none => some ['0']
  let uncompressed := year_code ++ [month_char, day_char, hour_char, minute_char, second_char] ++
    millis_code
  let date_time_part := compress_zeros uncompressed
  match timezone with
  | some tz => if tz = [] then pure date_time_part else pure (date_time_part ++ tz)
  | none => pure date_time_part

/-- `BitDT.encode_date_time`. -/
def encode_date_time (year month day hour minute second millis : Option Int)
    (timezone : Option (List Char)) : List Char :=
  (encode_date_time_core year month day hour minute second millis timezone).getD ['&']

/-- `BitDT.encode`. -/
def BitDT.encode (dt : BitDT) : List Char :=
  if is_empty dt then ['&']
  else
    let year := get_year dt
    let month := get_month dt
    let day := get_day dt
    let hour := get_hour dt
    let minute := get_minute dt
    let second := get_second dt
    let millis := get_millis dt
    let timezone := get_timezone dt
    let year := if dt.date_type = TYPE_TIME_ONLY then -1 else year
    let month := if dt.date_type = TYPE_TIME_ONLY then -1 else month
    let day := if dt.date_type = TYPE_TIME_ONLY then -1 else day
    let hour := if dt.date_type = TYPE_DATE_ONLY then -1 else hour
    let minute := if dt.date_type = TYPE_DATE_ONLY ∨ dt.date_type = TYPE_DATE_HOUR then -1
      else minute
    let second := if dt.date_type = TYPE_DATE_ONLY ∨ dt.date_type = TYPE_DATE_HOUR then -1
      else second
    let millis := if dt.date_type = TYPE_DATE_ONLY ∨ dt.date_type = TYPE_DATE_HOUR then -1
      else millis
    encode_date_time
      (if year = -1 then none else some year)
      (if month = -1 then none else some month)
      (if day = -1 then none else some day)
      (if hour = -1 then none else some hour)
      (if minute = -1 then none else some minute)
      (if second = -1 then none else some second)
      (if millis = -1 then none else some millis)
      timezone

/-! ### TextCodec decode -/

/-- Checked character access, Python `s[i]`; `.error ()` models an uncaught
`IndexError`. -/
def idx (s : List Char) (i : Nat) : Except Unit Char :=
  match s.get? i with
  | some c => .ok c
  | none => .error ()

/-- A single-character field step of `BitDT.decode` (the month/hour/minute/
second pattern); `none` is the `return create_empty` abort, otherwise the
decoded value (−1 for absent) and updated position are returned. -/
def readSingle (alphabet : List Char) (expanded : List Char) (pos : Nat) :
    Except Unit (Option (Int × Nat)) :=
  if pos < expanded.length then do
    let c ← idx expanded pos
    if c = '0' then pure (some (-1, pos + 1))
    else
      let v := strFind alphabet c
      if v = -1 then pure none else pure (some (v, pos + 1))
  else pure (some (-1, pos))

/-- The year step of `BitDT.decode`. -/
def readYear (expanded : List Char) : Except Unit (Option (Int × Nat)) :=
  if 0 < expanded.length then do
    let c ← idx expanded 0
    if c = '0' then pure (some (-1, 1))
    else if 0 + 2 < expanded.length then
      let year := decode_year ((expanded.drop 0).take 3)
      if year = -1 then pure none else pure (some (year, 3))
    else pure none
  else pure (some (-1, 0))

/-- The day step of `BitDT.decode` (note the `+ 1` and the `day == 0` test). -/
def readDay (expanded : List Char) (pos : Nat) : Except Unit (Option (Int × Nat)) :=
  if pos < expanded.length then do
    let c ← idx expanded pos
    if c = '0' then pure (some (-1, pos + 1))
    else
      let day := strFind DAYS c + 1
      if day = 0 then pure none else pure (some (day, pos + 1))
  else pure (some (-1, pos))

/-- The millisecond step of `BitDT.decode`. -/
def readMillis (expanded : List Char) (pos : Nat) : Except Unit (Option (Int × Nat)) :=
  if pos < expanded.length then do
    let c ← idx expanded pos
    if c = '0' then pure (some (0, pos + 1))
    else if pos + 1 < expanded.length then
      let millis := decode_milliseconds ((expanded.drop pos).take 2)
      if millis = -1 then pure none else pure (some (millis, pos + 2))
    else pure none
  else pure (some (-1, pos))

/-- `BitDT.decode`.  The `Except Unit` layer models uncaught Python exceptions:
`.error ()` would be an escaping exception (the theorem `decode_never_raises`
shows it never occurs); every malformed-input path yields `.ok create_empty`. -/
def BitDT.decode (bit_dt : Option (List Char)) : Except Unit BitDT := do
  match bit_dt with
  | none => return create_empty
  | some s =>
    let timezone_str := parse_timezone s
    let date_time_part := extract_datetime_part s
    if date_time_part = [] then return create_empty
    let c0 ← idx date_time_part 0
    if c0 ≠ '0' ∧ date_time_part.length < 3 then return create_empty
    let expanded := expand_zeros date_time_part
    if expanded.length < 7 then return create_empty
    if ¬(expanded.all is_valid_encoded_char) then return create_empty
    match ← readYear expanded with
    | none => return create_empty
    | some (year, pos1) =>
      match ← readSingle MONTHS expanded pos1 with
      | none => return create_empty
      | some (month, pos2) =>
        match ← readDay expanded pos2 with
        | none => return create_empty
        | some (day, pos3) =>
          match ← readSingle HOURS expanded pos3 with
          | none => return create_empty
          | some (hour, pos4) =>
            match ← readSingle MINUTES expanded pos4 with
            | none => return create_empty
            | some (minute, pos5) =>
              match ← readSingle MINUTES expanded pos5 with
              | none => return create_empty
              | some (second, pos6) =>
                match ← readMillis expanded pos6 with
                | none => return create_empty
                | some (millis, _) =>
                  if year = -1 ∧ month = -1 ∧ day = -1 ∧ hour = -1 ∧ minute = -1 ∧
                      second = -1 ∧ millis = -1 then
                    return create_empty
                  let final_year := if year = -1 then 0 else year
                  let final_month := if month = -1 then 0 else month
                  let final_day := if day = -1 then 0 else day
                  let final_hour := if hour = -1 then 0 else hour
                  let final_minute := if minute = -1 then 0 else minute
                  let final_second := if second = -1 then 0 else second
                  let final_millis := if millis = -1 then 0 else millis
                  return from_primitives final_year.toNat final_month.toNat final_day.toNat
                    final_hour.toNat final_minute.toNat final_second.toNat final_millis.toNat
                    timezone_str

deriving instance DecidableEq for Except

/-! ### A pure form of `decode`, proven equal to it -/

/-- Pure form of `readSingle` (used to state that `decode` cannot raise). -/
def readSingleP (alphabet expanded : List Char) (pos : Nat) : Option (Int × Nat) :=
  if pos < expanded.length then
    let c := expanded.getD pos ' '
    if c = '0' then some (-1, pos + 1)
    else
      let v := strFind alphabet c
      if v = -1 then none else some (v, pos + 1)
  else some (-1, pos)

/-- Pure form of `readYear`. -/
def readYearP (expanded : List Char) : Option (Int × Nat) :=
  if 0 < expanded.length then
    let c := expanded.getD 0 ' '
    if c = '0' then some (-1, 1)
    else if 0 + 2 < expanded.length then
      let year := decode_year ((expanded.drop 0).take 3)
      if year = -1 then none else some (year, 3)
    else none
  else some (-1, 0)

/-- Pure form of `readDay`. -/
def readDayP (expanded : List Char) (pos : Nat) : Option (Int × Nat) :=
  if pos < expanded.length then
    let c := expanded.getD pos ' '
    if c = '0' then some (-1, pos + 1)
    else
      let day := strFind DAYS c + 1
      if day = 0 then none else some (day, pos + 1)
  else some (-1, pos)

/-- Pure form of `readMillis`. -/
def readMillisP (expanded : List Char) (pos : Nat) : Option (Int × Nat) :=
  if pos < expanded.length then
    let c := expanded.getD pos ' '
    if c = '0' then some (0, pos + 1)
    else if pos + 1 < expanded.length then
      let millis := decode_milliseconds ((expanded.drop pos).take 2)
      if millis = -1 then none else some (millis, pos + 2)
    else none
  else some (-1, pos)

/-- The field-walking tail of `decodePure`: the seven field steps, the
all-absent check and the final construction. -/
def walkFields (expanded : List Char) (timezone_str : Option (List Char)) : BitDT :=
  match readYearP expanded with
        | none => create_empty
        | some (year, pos1) =>
          match readSingleP MONTHS expanded pos1 with
          | none => create_empty
          | some (month, pos2) =>
            match readDayP expanded pos2 with
            | none => create_empty
            | some (day, pos3) =>
              match readSingleP HOURS expanded pos3 with
              | none => create_empty
              | some (hour, pos4) =>
                match readSingleP MINUTES expanded pos4 with
                | none => create_empty
                | some (minute, pos5) =>
                  match readSingleP MINUTES expanded pos5 with
                  | none => create_empty
                  | some (second, pos6) =>
                    match readMillisP expanded pos6 with
                    | none => create_empty
                    | some (millis, _) =>
                      if year = -1 ∧ month = -1 ∧ day = -1 ∧ hour = -1 ∧ minute = -1 ∧
                          second = -1 ∧ millis = -1 then
                        create_empty
                      else
                        let final_year := if year = -1 then 0 else year
                        let final_month := if month = -1 then 0 else month
                        let final_day := if day = -1 then 0 else day
                        let final_hour := if hour = -1 then 0 else hour
                        let final_minute := if minute = -1 then 0 else minute
                        let final_second := if second = -1 then 0 else second
                        let final_millis := if millis = -1 then 0 else millis
                        from_primitives final_year.toNat final_month.toNat final_day.toNat
                          final_hour.toNat final_minute.toNat final_second.toNat
                          final_millis.toNat timezone_str

/-- The value `decode` computes, as a total pure function. -/
def decodePure (bit_dt : Option (List Char)) : BitDT :=
  match bit_dt with
  | none => create_empty
  | some s =>
    let timezone_str := parse_timezone s
    let date_time_part := extract_datetime_part s
    if date_time_part = [] then create_empty
    else if date_time_part.getD 0 ' ' ≠ '0' ∧ date_time_part.length < 3 then create_empty
    else
      let expanded := expand_zeros date_time_part
      if expanded.length < 7 then create_empty
      else if ¬(expanded.all is_valid_encoded_char) then create_empty
      else walkFields expanded timezone_str

theorem idx_eq_ok {s : List Char} {i : Nat} (h : i < s.length) :
    idx s i = pure (s.getD i ' ') := by
  unfold idx
  rw [List.get?_eq_get h, getD_eq_get h]
  rfl

theorem readSingle_eq (alphabet expanded : List Char) (pos : Nat) :
    readSingle alphabet expanded pos = pure (readSingleP alphabet expanded pos) := by
  unfold readSingle readSingleP
  by_cases h : pos < expanded.length
  · rw [if_pos h, if_pos h, idx_eq_ok h, pure_bind]
    dsimp only
    split_ifs <;> rfl
  · rw [if_neg h, if_neg h]

theorem readYear_eq (expanded : List Char) :
    readYear expanded = pure (readYearP expanded) := by
  unfold readYear readYearP
  by_cases h : 0 < expanded.length
  · rw [if_pos h, if_pos h, idx_eq_ok h, pure_bind]
    dsimp only
    split_ifs <;> rfl
  · rw [if_neg h, if_neg h]

theorem readDay_eq (expanded : List Char) (pos : Nat) :
    readDay expanded pos = pure (readDayP expanded pos) := by
  unfold readDay readDayP
  by_cases h : pos < expanded.length
  · rw [if_pos h, if_pos h, idx_eq_ok h, pure_bind]
    dsimp only
    split_ifs <;> rfl
  · rw [if_neg h, if_neg h]

theorem readMillis_eq (expanded : List Char) (pos : Nat) :
    readMillis expanded pos = pure (readMillisP expanded pos) := by
  unfold readMillis readMillisP
  by_cases h : pos < expanded.length
  · rw [if_pos h, if_pos h, idx_eq_ok h, pure_bind]
    dsimp only
    split_ifs <;> rfl
  · rw [if_neg h, if_neg h]

set_option maxHeartbeats 1000000 in
/-- C3 core: `decode` never produces `.error` and agrees with its pure form. -/
theorem decode_eq_pure : ∀ x : Option (List Char), BitDT.decode x = .ok (decodePure x) := by
  intro x
  match x with
  | none => rfl
  | some s =>
    show BitDT.decode (some s) = _
    rw [BitDT.decode, decodePure]
    by_cases h1 : extract_datetime_part s = []
    · simp only [if_pos h1]
      rfl
    · have hne : 0 < (extract_datetime_part s).length := List.length_pos.mpr h1
      simp only [if_neg h1, idx_eq_ok hne, pure_bind]
      by_cases h2 : (extract_datetime_part s).getD 0 ' ' ≠ '0' ∧
          (extract_datetime_part s).length < 3
      · simp only [if_pos h2]
        rfl
      · simp only [if_neg h2]
        by_cases h3 : (expand_zeros (extract_datetime_part s)).length < 7
        · simp only [if_pos h3]
          rfl
        · simp only [if_neg h3]
          by_cases h4 : ¬((expand_zeros (extract_datetime_part s)).all is_valid_encoded_char)
          · simp only [if_pos h4]
            rfl
          · simp only [if_neg h4, readYear_eq, pure_bind, walkFields]
            cases hY : readYearP (expand_zeros (extract_datetime_part s)) with
            | none => rfl
            | some yp =>
              obtain ⟨year, pos1⟩ := yp
              simp only [readSingle_eq, pure_bind]
              cases hM : readSingleP MONTHS (expand_zeros (extract_datetime_part s)) pos1 with
              | none => rfl
              | some mp =>
                obtain ⟨month, pos2⟩ := mp
                simp only [readDay_eq, pure_bind]
                cases hD : readDayP (expand_zeros (extract_datetime_part s)) pos2 with
                | none => rfl
                | some dp =>
                  obtain ⟨day, pos3⟩ := dp
                  simp only [readSingle_eq, pure_bind]
                  cases hH : readSingleP HOURS (expand_zeros (extract_datetime_part s)) pos3 with
                  | none => rfl
                  | some hp =>
                    obtain ⟨hour, pos4⟩ := hp
                    dsimp only
                    cases hMi : readSingleP MINUTES (expand_zeros (extract_datetime_part s))
                        pos4 with
                    | none => rfl
                    | some mip =>
                      obtain ⟨minute, pos5⟩ := mip
                      dsimp only
                      cases hSe : readSingleP MINUTES (expand_zeros (extract_datetime_part s))
                          pos5 with
                      | none => rfl
                      | some sep =>
                        obtain ⟨second, pos6⟩ := sep
                        simp only [readMillis_eq, pure_bind]
                        cases hMs : readMillisP (expand_zeros (extract_datetime_part s))
                            pos6 with
                        | none => rfl
                        | some msp =>
                          obtain ⟨millis, pos7⟩ := msp
                          dsimp only
                          split_ifs <;> rfl

/-- C3: on every input (`None` or any string) `decode` returns a `BitDT` value
and never lets an exception escape: the result is always `.ok`, with all
malformed inputs degrading inside that value (see `decodePure`), never to
`.error`. -/
theorem decode_never_raises :
    ∀ bit_dt : Option (List Char), ∃ dt : BitDT, BitDT.decode bit_dt = Except.ok dt :=
  fun b => ⟨decodePure b, decode_eq_pure b⟩

/-- C8: `decode(None)`, `decode("")`, `decode("INVALID")` and `decode("123")`
all yield the Empty value; "123" passes the shorter-than-3 body rule (it has
length exactly 3) and is rejected by the minimum expanded length of 7. -/
theorem decode_malformed_empty :
    BitDT.decode none = .ok create_empty ∧
    BitDT.decode (some "".data) = .ok create_empty ∧
    BitDT.decode (some "INVALID".data) = .ok create_empty ∧
    BitDT.decode (some "123".data) = .ok create_empty ∧
    is_empty create_empty = true ∧
    ¬(("123".data).getD 0 ' ' ≠ '0' ∧ ("123".data).length < 3) ∧
    (expand_zeros "123".data).length < 7 := by
  refine ⟨by decide, by decide, by decide, by decide, by decide, by decide, by decide⟩

/-! ### All-sentinel bodies (C4) -/

theorem getD_replicate {n i : Nat} (h : i < n) : (List.replicate n '0').getD i ' ' = '0' := by
  rw [getD_eq_get (by simpa using h)]
  simp [List.get_eq_getElem]

theorem readSingleP_replicate (alphabet : List Char) {n pos : Nat} (h : pos < n) :
    readSingleP alphabet (List.replicate n '0') pos = some (-1, pos + 1) := by
  unfold readSingleP
  rw [List.length_replicate, if_pos h, getD_replicate h]
  simp

theorem readYearP_replicate {n : Nat} (h : 0 < n) :
    readYearP (List.replicate n '0') = some (-1, 1) := by
  unfold readYearP
  rw [List.length_replicate, if_pos h, getD_replicate h]
  simp

theorem readDayP_replicate {n pos : Nat} (h : pos < n) :
    readDayP (List.replicate n '0') pos = some (-1, pos + 1) := by
  unfold readDayP
  rw [List.length_replicate, if_pos h, getD_replicate h]
  simp

theorem readMillisP_replicate {n pos : Nat} (h : pos < n) :
    readMillisP (List.replicate n '0') pos = some (0, pos + 1) := by
  unfold readMillisP
  rw [List.length_replicate, if_pos h, getD_replicate h]
  simp

theorem all_valid_replicate (n : Nat) :
    (List.replicate n '0').all is_valid_encoded_char = true := by
  rw [List.all_eq_true]
  intro c hc
  rw [List.eq_of_mem_replicate hc]
  decide

/-- C4 (amended): every input whose date-time body expands to a pure run of
sentinel zeros decodes to an Empty-typed value with packed value 0 regardless
of any affix (though the affix's offset is retained, see the counterexample);
the inputs "&" and "&+05" themselves give exactly the Empty sentinel, and every
such result satisfies `is_empty`. -/
theorem decode_all_sentinel_empty :
    (∀ (s : List Char) (n : Nat),
      expand_zeros (extract_datetime_part s) = List.replicate n '0' →
      ∃ off : Int, BitDT.decode (some s) = .ok ⟨0, off, TYPE_EMPTY⟩) ∧
    BitDT.decode (some "&".data) = .ok create_empty ∧
    BitDT.decode (some "&+05".data) = .ok create_empty ∧
    (∀ off : Int, is_empty ⟨0, off, TYPE_EMPTY⟩ = true) := by
  refine ⟨?_, by decide, by decide, fun _ => rfl⟩
  intro s n h
  rw [decode_eq_pure (some s)]
  refine ⟨(decodePure (some s)).timezone_offset, ?_⟩
  suffices hsuff : (decodePure (some s)).packed_value = 0 ∧
      (decodePure (some s)).date_type = TYPE_EMPTY by
    obtain ⟨hp, ht⟩ := hsuff
    rw [← hp, ← ht]
  rw [decodePure]
  dsimp only
  by_cases h1 : extract_datetime_part s = []
  · rw [if_pos h1]
    exact ⟨rfl, rfl⟩
  · rw [if_neg h1]
    by_cases h2 : (extract_datetime_part s).getD 0 ' ' ≠ '0' ∧
        (extract_datetime_part s).length < 3
    · rw [if_pos h2]
      exact ⟨rfl, rfl⟩
    · rw [if_neg h2, h]
      by_cases h3 : (List.replicate n '0').length < 7
      · rw [if_pos h3]
        exact ⟨rfl, rfl⟩
      · rw [if_neg h3]
        have hn : 7 ≤ n := by simpa using h3
        rw [if_neg (fun hcon => hcon (all_valid_replicate n))]
        unfold walkFields
        rw [readYearP_replicate (by omega : 0 < n)]
        dsimp only
        rw [readSingleP_replicate MONTHS (by omega : 1 < n)]
        dsimp only
        rw [readDayP_replicate (by omega : 2 < n)]
        dsimp only
        rw [readSingleP_replicate HOURS (by omega : 3 < n)]
        dsimp only
        rw [readSingleP_replicate MINUTES (by omega : 4 < n)]
        dsimp only
        rw [readSingleP_replicate MINUTES (by omega : 5 < n)]
        dsimp only
        rw [readMillisP_replicate (by omega : 6 < n)]
        dsimp only
        rw [if_neg (by decide)]
        exact ⟨rfl, rfl⟩

/-- C4 counterexample (to the claim as stated): the input "0!+05" has an
all-sentinel body ("0!" expands to seven sentinel zeros) followed by a
timezone affix, yet its decoding is not the Empty sentinel: the timezone
offset 20 from the affix is retained and observable through `get_timezone`. -/
theorem decode_all_sentinel_affix_counterexample :
    expand_zeros (extract_datetime_part "0!+05".data) = List.replicate 7 '0' ∧
    BitDT.decode (some "0!+05".data) = .ok ⟨0, 20, TYPE_EMPTY⟩ ∧
    get_timezone ⟨0, 20, TYPE_EMPTY⟩ = some "+05".data ∧
    (⟨0, 20, TYPE_EMPTY⟩ : BitDT) ≠ create_empty ∧
    (⟨0, 20, TYPE_EMPTY⟩ : BitDT).timezone_offset ≠ 0 := by
  refine ⟨by decide, by decide, by decide, by decide, by decide⟩

/-- C4 witness: the amended statement applied at the affixless all-sentinel
input "0!". -/
theorem decode_all_sentinel_empty_witness :
    ∃ off : Int, BitDT.decode (some "0!".data) = .ok ⟨0, off, TYPE_EMPTY⟩ :=
  decode_all_sentinel_empty.1 "0!".data 7 (by decide)

/-! ### Ordering (C2) -/

/-- Lexicographic strict order on (year, month, day, hour, minute, second,
millis) component tuples. -/
def lex_lt (y1 m1 d1 h1 mi1 s1 ms1 y2 m2 d2 h2 mi2 s2 ms2 : Nat) : Prop :=
  y1 < y2 ∨ (y1 = y2 ∧ (m1 < m2 ∨ (m1 = m2 ∧ (d1 < d2 ∨ (d1 = d2 ∧ (h1 < h2 ∨ (h1 = h2 ∧
    (mi1 < mi2 ∨ (mi1 = mi2 ∧ (s1 < s2 ∨ (s1 = s2 ∧ ms1 < ms2)))))))))))

set_option maxHeartbeats 1000000 in
theorem packedSum_lex (y1 m1 d1 h1 mi1 s1 ms1 y2 m2 d2 h2 mi2 s2 ms2 : Nat)
    (hy1 : y1 ≤ 226980) (hm1 : m1 ≤ 11) (hd1 : d1 ≤ 31) (hh1 : h1 ≤ 23)
    (hmi1 : mi1 ≤ 59) (hs1 : s1 ≤ 59) (hms1 : ms1 ≤ 999)
    (hy2 : y2 ≤ 226980) (hm2 : m2 ≤ 11) (hd2 : d2 ≤ 31) (hh2 : h2 ≤ 23)
    (hmi2 : mi2 ≤ 59) (hs2 : s2 ≤ 59) (hms2 : ms2 ≤ 999) :
    (packedSum y1 m1 d1 h1 mi1 s1 ms1 TYPE_FULL <
        packedSum y2 m2 d2 h2 mi2 s2 ms2 TYPE_FULL ↔
      lex_lt y1 m1 d1 h1 mi1 s1 ms1 y2 m2 d2 h2 mi2 s2 ms2) ∧
    (packedSum y1 m1 d1 h1 mi1 s1 ms1 TYPE_FULL =
        packedSum y2 m2 d2 h2 mi2 s2 ms2 TYPE_FULL ↔
      (y1 = y2 ∧ m1 = m2 ∧ d1 = d2 ∧ h1 = h2 ∧ mi1 = mi2 ∧ s1 = s2 ∧ ms1 = ms2)) := by
  simp only [packedSum, lex_lt, TYPE_FULL]
  norm_num
  omega

/-- C2: for Full-precision values built from in-range components with distinct
component tuples, the sign of `compare_to` is exactly the lexicographic
comparison of the tuples; equivalently numeric ordering of the packed value
agrees with lexicographic tuple ordering, and the shared precision tag in the
least-significant byte never perturbs it. -/
theorem compare_to_lexicographic (y1 m1 d1 h1 mi1 s1 ms1 y2 m2 d2 h2 mi2 s2 ms2 : Nat)
    (tz1 tz2 : Option (List Char))
    (hy1 : y1 ≤ 226980) (hm1 : m1 ≤ 11) (hd1 : d1 ≤ 31) (hh1 : h1 ≤ 23)
    (hmi1 : mi1 ≤ 59) (hs1 : s1 ≤ 59) (hms1 : ms1 ≤ 999)
    (hy2 : y2 ≤ 226980) (hm2 : m2 ≤ 11) (hd2 : d2 ≤ 31) (hh2 : h2 ≤ 23)
    (hmi2 : mi2 ≤ 59) (hs2 : s2 ≤ 59) (hms2 : ms2 ≤ 999)
    (hT1 : determine_date_type y1 m1 d1 h1 mi1 s1 ms1 = TYPE_FULL)
    (hT2 : determine_date_type y2 m2 d2 h2 mi2 s2 ms2 = TYPE_FULL)
    (hne : ¬(y1 = y2 ∧ m1 = m2 ∧ d1 = d2 ∧ h1 = h2 ∧ mi1 = mi2 ∧ s1 = s2 ∧ ms1 = ms2)) :
    (compare_to (from_primitives y1 m1 d1 h1 mi1 s1 ms1 tz1)
        (from_primitives y2 m2 d2 h2 mi2 s2 ms2 tz2) = -1 ↔
      lex_lt y1 m1 d1 h1 mi1 s1 ms1 y2 m2 d2 h2 mi2 s2 ms2) ∧
    (compare_to (from_primitives y1 m1 d1 h1 mi1 s1 ms1 tz1)
        (from_primitives y2 m2 d2 h2 mi2 s2 ms2 tz2) = 1 ↔
      lex_lt y2 m2 d2 h2 mi2 s2 ms2 y1 m1 d1 h1 mi1 s1 ms1) ∧
    compare_to (from_primitives y1 m1 d1 h1 mi1 s1 ms1 tz1)
        (from_primitives y2 m2 d2 h2 mi2 s2 ms2 tz2) ≠ 0 ∧
    ((from_primitives y1 m1 d1 h1 mi1 s1 ms1 tz1).packed_value <
        (from_primitives y2 m2 d2 h2 mi2 s2 ms2 tz2).packed_value ↔
      lex_lt y1 m1 d1 h1 mi1 s1 ms1 y2 m2 d2 h2 mi2 s2 ms2) := by
  have hp1 := from_primitives_packed y1 m1 d1 h1 mi1 s1 ms1 tz1 hy1 hm1 hd1 hh1 hmi1 hs1 hms1
  have hp2 := from_primitives_packed y2 m2 d2 h2 mi2 s2 ms2 tz2 hy2 hm2 hd2 hh2 hmi2 hs2 hms2
  rw [hT1] at hp1
  rw [hT2] at hp2
  have key12 := packedSum_lex y1 m1 d1 h1 mi1 s1 ms1 y2 m2 d2 h2 mi2 s2 ms2
    hy1 hm1 hd1 hh1 hmi1 hs1 hms1 hy2 hm2 hd2 hh2 hmi2 hs2 hms2
  have key21 := packedSum_lex y2 m2 d2 h2 mi2 s2 ms2 y1 m1 d1 h1 mi1 s1 ms1
    hy2 hm2 hd2 hh2 hmi2 hs2 hms2 hy1 hm1 hd1 hh1 hmi1 hs1 hms1
  simp only [compare_to, hp1, hp2]
  rcases Nat.lt_trichotomy (packedSum y1 m1 d1 h1 mi1 s1 ms1 TYPE_FULL)
      (packedSum y2 m2 d2 h2 mi2 s2 ms2 TYPE_FULL) with h | h | h
  · rw [if_pos h]
    refine ⟨by simp [key12.1.mp h], ?_, by decide, by simp [h, key12.1.mp h]⟩
    constructor
    · intro hcon
      exact absurd hcon (by decide)
    · intro hlex21
      exact absurd (key21.1.mpr hlex21) (by omega)
  · exact absurd (key12.2.mp h) hne
  · rw [if_neg (by omega), if_pos (by omega : packedSum y1 m1 d1 h1 mi1 s1 ms1 TYPE_FULL >
      packedSum y2 m2 d2 h2 mi2 s2 ms2 TYPE_FULL)]
    refine ⟨?_, by simp [key21.1.mp h], by decide, ?_⟩
    · constructor
      · intro hcon
        exact absurd hcon (by decide)
      · intro hlex12
        exact absurd (key12.1.mpr hlex12) (by omega)
    · constructor
      · intro hcon
        exact absurd hcon (by omega)
      · intro hlex12
        exact absurd (key12.1.mpr hlex12) (by omega)

/-- C2 witness: two concrete Full tuples differing in the second field. -/
theorem compare_to_lexicographic_witness :
    (compare_to (from_primitives 52024 5 14 15 30 45 123 none)
        (from_primitives 52024 6 14 15 30 45 123 none) = -1 ↔
      lex_lt 52024 5 14 15 30 45 123 52024 6 14 15 30 45 123) ∧
    (compare_to (from_primitives 52024 5 14 15 30 45 123 none)
        (from_primitives 52024 6 14 15 30 45 123 none) = 1 ↔
      lex_lt 52024 6 14 15 30 45 123 52024 5 14 15 30 45 123) ∧
    compare_to (from_primitives 52024 5 14 15 30 45 123 none)
        (from_primitives 52024 6 14 15 30 45 123 none) ≠ 0 ∧
    ((from_primitives 52024 5 14 15 30 45 123 none).packed_value <
        (from_primitives 52024 6 14 15 30 45 123 none).packed_value ↔
      lex_lt 52024 5 14 15 30 45 123 52024 6 14 15 30 45 123) :=
  compare_to_lexicographic 52024 5 14 15 30 45 123 52024 6 14 15 30 45 123 none none
    (by decide) (by decide) (by decide) (by decide) (by decide) (by decide) (by decide)
    (by decide) (by decide) (by decide) (by decide) (by decide) (by decide) (by decide)
    (by decide) (by decide) (by decide)

/-! ### Round trip (C1): year codec and alphabet facts -/

/-- The three-symbol year code produced by `encode_year` for an in-range year. -/
def yearChars (y : Nat) : List Char :=
  [YEAR_CHARS.getD (y / (61 * 61)) ' ', YEAR_CHARS.getD (y / 61 % 61) ' ',
    YEAR_CHARS.getD (y % 61) ' ']

theorem YEAR_CHARS_nodup : YEAR_CHARS.Nodup := by decide

theorem YEAR_CHARS_length : YEAR_CHARS.length = 61 := by decide

theorem MONTHS_nodup : MONTHS.Nodup := by decide

theorem MONTHS_length : MONTHS.length = 12 := by decide

theorem DAYS_nodup : DAYS.Nodup := by decide

theorem DAYS_length : DAYS.length = 31 := by decide

theorem HOURS_nodup : HOURS.Nodup := by decide

theorem HOURS_length : HOURS.length = 24 := by decide

theorem MINUTES_nodup : MINUTES.Nodup := by decide

theorem MINUTES_length : MINUTES.length = 60 := by decide

theorem encode_year_eq (y : Nat) (h : y ≤ 226980) :
    encode_year (y : Int) = some (yearChars y) := by
  unfold encode_year yearChars
  rw [if_neg (by omega : ¬((y : Int) < 0 ∨ (y : Int) ≥ 226981))]
  simp only [Int.toNat_natCast]

theorem decode_year_encode (y : Nat) (h : y ≤ 226980) :
    decode_year (yearChars y) = (y : Int) := by
  have h1 : y / (61 * 61) < YEAR_CHARS.length := by rw [YEAR_CHARS_length]; omega
  have h2 : y / 61 % 61 < YEAR_CHARS.length := by rw [YEAR_CHARS_length]; omega
  have h3 : y % 61 < YEAR_CHARS.length := by rw [YEAR_CHARS_length]; omega
  have f1 := strFind_getD YEAR_CHARS_nodup _ h1
  have f2 := strFind_getD YEAR_CHARS_nodup _ h2
  have f3 := strFind_getD YEAR_CHARS_nodup _ h3
  unfold decode_year yearChars
  simp only [List.length_cons, List.length_nil, List.getD_cons_zero, List.getD_cons_succ,
    f1, f2, f3]
  rw [if_neg (by omega : ¬((0 : Nat) + 1 + 1 + 1 ≠ 3))]
  split
  · omega
  · omega

set_option maxRecDepth 8192 in
/-- Every character of the field alphabets is distinct from the sentinel, the
compression symbols and the timezone signs. -/
theorem allFieldChars_facts :
    ∀ c ∈ allFieldChars,
      c ≠ '+' ∧ c ≠ '-' ∧ is_valid_encoded_char c = true := by decide

set_option maxRecDepth 8192 in
theorem alphabet_chars_ne_zero :
    ∀ c ∈ YEAR_CHARS ++ MONTHS ++ DAYS ++ HOURS ++ MINUTES ++ FIRST_CHAR ++ SECOND_CHAR,
      c ≠ '0' := by decide

theorem tz_digit_not_sign : ∀ c ∈ TIMEZONE_DIGITS, c ≠ '+' ∧ c ≠ '-' := by decide

theorem mem_allFieldChars_year {c : Char} (h : c ∈ YEAR_CHARS) : c ∈ allFieldChars := by
  simp only [allFieldChars, List.mem_cons, List.mem_append]
  tauto

theorem mem_allFieldChars_months {c : Char} (h : c ∈ MONTHS) : c ∈ allFieldChars := by
  simp only [allFieldChars, List.mem_cons, List.mem_append]
  tauto

theorem mem_allFieldChars_days {c : Char} (h : c ∈ DAYS) : c ∈ allFieldChars := by
  simp only [allFieldChars, List.mem_cons, List.mem_append]
  tauto

theorem mem_allFieldChars_hours {c : Char} (h : c ∈ HOURS) : c ∈ allFieldChars := by
  simp only [allFieldChars, List.mem_cons, List.mem_append]
  tauto

theorem mem_allFieldChars_minutes {c : Char} (h : c ∈ MINUTES) : c ∈ allFieldChars := by
  simp only [allFieldChars, List.mem_cons, List.mem_append]
  tauto

theorem mem_allFieldChars_first {c : Char} (h : c ∈ FIRST_CHAR) : c ∈ allFieldChars := by
  simp only [allFieldChars, List.mem_cons, List.mem_append]
  tauto

theorem mem_allFieldChars_second {c : Char} (h : c ∈ SECOND_CHAR) : c ∈ allFieldChars := by
  simp only [allFieldChars, List.mem_cons, List.mem_append]
  tauto

theorem mem_allFieldChars_zero : '0' ∈ allFieldChars := by
  simp [allFieldChars]

theorem year_char_ne_zero {c : Char} (h : c ∈ YEAR_CHARS) : c ≠ '0' :=
  alphabet_chars_ne_zero c (by simp only [List.mem_append]; tauto)

theorem months_char_ne_zero {c : Char} (h : c ∈ MONTHS) : c ≠ '0' :=
  alphabet_chars_ne_zero c (by simp only [List.mem_append]; tauto)

theorem days_char_ne_zero {c : Char} (h : c ∈ DAYS) : c ≠ '0' :=
  alphabet_chars_ne_zero c (by simp only [List.mem_append]; tauto)

theorem hours_char_ne_zero {c : Char} (h : c ∈ HOURS) : c ≠ '0' :=
  alphabet_chars_ne_zero c (by simp only [List.mem_append]; tauto)

theorem minutes_char_ne_zero {c : Char} (h : c ∈ MINUTES) : c ≠ '0' :=
  alphabet_chars_ne_zero c (by simp only [List.mem_append]; tauto)

theorem first_char_ne_zero {c : Char} (h : c ∈ FIRST_CHAR) : c ≠ '0' :=
  alphabet_chars_ne_zero c (by simp only [List.mem_append]; tauto)

/-! ### Date-type classification under C1's ranges (day ≥ 1) -/

theorem determine_date_only (y m d h mi s ms : Nat) (hd1 : 1 ≤ d)
    (hz : h = 0 ∧ mi = 0 ∧ s = 0 ∧ ms = 0) :
    determine_date_type y m d h mi s ms = TYPE_DATE_ONLY := by
  simp only [determine_date_type, TYPE_EMPTY, TYPE_DATE_ONLY, TYPE_TIME_ONLY, TYPE_DATE_HOUR,
    TYPE_FULL]
  split_ifs <;> omega

theorem determine_date_hour (y m d h mi s ms : Nat) (hd1 : 1 ≤ d)
    (hz : mi = 0 ∧ s = 0 ∧ ms = 0) (hh : h ≠ 0) :
    determine_date_type y m d h mi s ms = TYPE_DATE_HOUR := by
  simp only [determine_date_type, TYPE_EMPTY, TYPE_DATE_ONLY, TYPE_TIME_ONLY, TYPE_DATE_HOUR,
    TYPE_FULL]
  split_ifs <;> omega

theorem determine_full (y m d h mi s ms : Nat) (hd1 : 1 ≤ d)
    (hnz : ¬(mi = 0 ∧ s = 0 ∧ ms = 0)) :
    determine_date_type y m d h mi s ms = TYPE_FULL := by
  simp only [determine_date_type, TYPE_EMPTY, TYPE_DATE_ONLY, TYPE_TIME_ONLY, TYPE_DATE_HOUR,
    TYPE_FULL]
  split_ifs <;> omega

/-! ### Accessor values of `from_primitives` -/

section
variable (year month day hour minute second millis : Nat) (tz : Option (List Char))

theorem get_year_fp (hy : year ≤ 226980) (hm : month ≤ 11) (hd : day ≤ 31) (hh : hour ≤ 23) (hmi : minute ≤ 59) (hs : second ≤ 59) (hms : millis ≤ 999) (hT0 : determine_date_type year month day hour minute second millis ≠
      TYPE_EMPTY)
    (hT3 : determine_date_type year month day hour minute second millis ≠ TYPE_TIME_ONLY) :
    get_year (from_primitives year month day hour minute second millis tz) = year := by
  unfold get_year
  rw [from_primitives_date_type, if_neg (by tauto),
    from_primitives_packed year month day hour minute second millis tz hy hm hd hh hmi hs hms,
    packedSum_year year month day hour minute second millis _ hy hm hd hh hmi hs hms
      (determine_date_type_le _ _ _ _ _ _ _)]

theorem get_month_fp (hy : year ≤ 226980) (hm : month ≤ 11) (hd : day ≤ 31) (hh : hour ≤ 23) (hmi : minute ≤ 59) (hs : second ≤ 59) (hms : millis ≤ 999) (hT0 : determine_date_type year month day hour minute second millis ≠
      TYPE_EMPTY)
    (hT3 : determine_date_type year month day hour minute second millis ≠ TYPE_TIME_ONLY) :
    get_month (from_primitives year month day hour minute second millis tz) = month := by
  unfold get_month
  rw [from_primitives_date_type, if_neg (by tauto),
    from_primitives_packed year month day hour minute second millis tz hy hm hd hh hmi hs hms,
    packedSum_month year month day hour minute second millis _ hy hm hd hh hmi hs hms
      (determine_date_type_le _ _ _ _ _ _ _)]

theorem get_day_fp (hy : year ≤ 226980) (hm : month ≤ 11) (hd : day ≤ 31) (hh : hour ≤ 23) (hmi : minute ≤ 59) (hs : second ≤ 59) (hms : millis ≤ 999) (hT0 : determine_date_type year month day hour minute second millis ≠
      TYPE_EMPTY)
    (hT3 : determine_date_type year month day hour minute second millis ≠ TYPE_TIME_ONLY) :
    get_day (from_primitives year month day hour minute second millis tz) = day := by
  unfold get_day
  rw [from_primitives_date_type, if_neg (by tauto),
    from_primitives_packed year month day hour minute second millis tz hy hm hd hh hmi hs hms,
    packedSum_day year month day hour minute second millis _ hy hm hd hh hmi hs hms
      (determine_date_type_le _ _ _ _ _ _ _)]

theorem get_hour_fp (hy : year ≤ 226980) (hm : month ≤ 11) (hd : day ≤ 31) (hh : hour ≤ 23) (hmi : minute ≤ 59) (hs : second ≤ 59) (hms : millis ≤ 999) (hT0 : determine_date_type year month day hour minute second millis ≠
      TYPE_EMPTY)
    (hT2 : determine_date_type year month day hour minute second millis ≠ TYPE_DATE_ONLY) :
    get_hour (from_primitives year month day hour minute second millis tz) = hour := by
  unfold get_hour
  rw [from_primitives_date_type, if_neg (by tauto),
    from_primitives_packed year month day hour minute second millis tz hy hm hd hh hmi hs hms,
    packedSum_hour year month day hour minute second millis _ hy hm hd hh hmi hs hms
      (determine_date_type_le _ _ _ _ _ _ _)]

theorem get_minute_fp (hy : year ≤ 226980) (hm : month ≤ 11) (hd : day ≤ 31) (hh : hour ≤ 23) (hmi : minute ≤ 59) (hs : second ≤ 59) (hms : millis ≤ 999) (hT1 : determine_date_type year month day hour minute second millis =
      TYPE_FULL) :
    get_minute (from_primitives year month day hour minute second millis tz) = minute := by
  unfold get_minute
  rw [from_primitives_date_type, hT1]
  rw [if_neg (by decide), if_neg (by decide),
    from_primitives_packed year month day hour minute second millis tz hy hm hd hh hmi hs hms,
    packedSum_minute year month day hour minute second millis _ hy hm hd hh hmi hs hms
      (determine_date_type_le _ _ _ _ _ _ _)]

theorem get_second_fp (hy : year ≤ 226980) (hm : month ≤ 11) (hd : day ≤ 31) (hh : hour ≤ 23) (hmi : minute ≤ 59) (hs : second ≤ 59) (hms : millis ≤ 999) (hT1 : determine_date_type year month day hour minute second millis =
      TYPE_FULL) :
    get_second (from_primitives year month day hour minute second millis tz) = second := by
  unfold get_second
  rw [from_primitives_date_type, hT1]
  rw [if_neg (by decide), if_neg (by decide),
    from_primitives_packed year month day hour minute second millis tz hy hm hd hh hmi hs hms,
    packedSum_second year month day hour minute second millis _ hy hm hd hh hmi hs hms
      (determine_date_type_le _ _ _ _ _ _ _)]

theorem get_millis_fp (hy : year ≤ 226980) (hm : month ≤ 11) (hd : day ≤ 31) (hh : hour ≤ 23) (hmi : minute ≤ 59) (hs : second ≤ 59) (hms : millis ≤ 999) (hT1 : determine_date_type year month day hour minute second millis =
      TYPE_FULL) :
    get_millis (from_primitives year month day hour minute second millis tz) = millis := by
  unfold get_millis
  rw [from_primitives_date_type, hT1]
  rw [if_neg (by decide), if_neg (by decide),
    from_primitives_packed year month day hour minute second millis tz hy hm hd hh hmi hs hms,
    packedSum_millis year month day hour minute second millis _ hy hm hd hh hmi hs hms
      (determine_date_type_le _ _ _ _ _ _ _)]

end

/-! ### Timezone affix parsing lemmas -/

theorem scanTz_skip (s : List Char) : ∀ n i, i ≤ n →
    (∀ j, i ≤ j → j < n → ¬(s.getD j ' ' = '+' ∨ s.getD j ' ' = '-')) →
    scanTz s n = scanTz s i := by
  intro n
  induction n with
  | zero =>
    intro i hi _
    have : i = 0 := by omega
    rw [this]
  | succ n ih =>
    intro i hi hno
    by_cases hin : i = n + 1
    · rw [hin]
    · have hcn : ¬(s.getD n ' ' = '+' ∨ s.getD n ' ' = '-') := hno n (by omega) (by omega)
      rw [scanTz]
      dsimp only
      rw [if_neg hcn]
      exact ih i (by omega) (fun j hj1 hj2 => hno j hj1 (by omega))

theorem parse_timezone_none (s : List Char) (h : ∀ c ∈ s, c ≠ '+' ∧ c ≠ '-') :
    parse_timezone s = none := by
  unfold parse_timezone
  by_cases hl : s.length < 2
  · rw [if_pos hl]
  · have hmem : ∀ j, j < s.length → ¬(s.getD j ' ' = '+' ∨ s.getD j ' ' = '-') := by
      intro j hj
      have := h _ (getD_mem hj)
      tauto
    rw [if_neg hl, if_neg (hmem (s.length - 1) (by omega)),
      scanTz_skip s s.length 0 (by omega) (fun j _ hj2 => hmem j hj2)]
    rfl

theorem parse_timezone_append (body digits : List Char) (sign : Char)
    (hsign : sign = '+' ∨ sign = '-')
    (hbody : ∀ c ∈ body, c ≠ '+' ∧ c ≠ '-')
    (hdig : ∀ c ∈ digits, c ∈ TIMEZONE_DIGITS)
    (hdne : digits ≠ [])
    (hvalid : is_valid_timezone (sign :: digits) = true) :
    parse_timezone (body ++ sign :: digits) = some (sign :: digits) := by
  have hdlen : 0 < digits.length := List.length_pos.mpr hdne
  have hlen : (body ++ sign :: digits).length = body.length + digits.length + 1 := by
    simp [List.length_append]
    omega
  have hgetdig : ∀ j, body.length + 1 ≤ j → j < body.length + digits.length + 1 →
      (body ++ sign :: digits).getD j ' ' ∈ TIMEZONE_DIGITS := by
    intro j hj1 hj2
    have hj3 : body.length ≤ j := by omega
    rw [List.getD_append_right _ _ _ _ hj3]
    have : j - body.length = (j - body.length - 1) + 1 := by omega
    rw [this, List.getD_cons_succ]
    exact hdig _ (getD_mem (by omega))
  unfold parse_timezone
  rw [if_neg (by omega : ¬(body ++ sign :: digits).length < 2)]
  have hlast : ¬((body ++ sign :: digits).getD ((body ++ sign :: digits).length - 1) ' ' = '+' ∨
      (body ++ sign :: digits).getD ((body ++ sign :: digits).length - 1) ' ' = '-') := by
    have := tz_digit_not_sign _ (hgetdig ((body ++ sign :: digits).length - 1)
      (by omega) (by omega))
    tauto
  rw [if_neg hlast]
  have hskip := scanTz_skip (body ++ sign :: digits) (body ++ sign :: digits).length
    (body.length + 1) (by omega)
    (fun j hj1 hj2 => by
      have := tz_digit_not_sign _ (hgetdig j hj1 (by omega))
      tauto)
  rw [hskip, scanTz]
  dsimp only
  have hsgn : (body ++ sign :: digits).getD body.length ' ' = sign := by
    rw [List.getD_append_right _ _ _ _ (Nat.le_refl _)]
    simp
  rw [hsgn, if_pos hsign]
  have hdrop : (body ++ sign :: digits).drop body.length = sign :: digits := by
    simp [List.drop_left]
  rw [hdrop, if_pos hvalid]

theorem extract_of_parse_none {s : List Char} (h : parse_timezone s = none) :
    extract_datetime_part s = s := by
  unfold extract_datetime_part
  rw [h]

theorem extract_of_parse_append (body digits : List Char) (sign : Char)
    (h : parse_timezone (body ++ sign :: digits) = some (sign :: digits)) :
    extract_datetime_part (body ++ sign :: digits) = body := by
  unfold extract_datetime_part
  rw [h]
  dsimp only
  have : (body ++ sign :: digits).length - (sign :: digits).length = body.length := by
    simp [List.length_append]
  rw [this, List.take_left]

/-! ### Compression output facts -/

theorem encode_zero_run_chars (k : Nat) :
    ∀ c ∈ encode_zero_run k, c ∈ "0.:;?!&".data := by
  unfold encode_zero_run
  split_ifs <;> intro c hc
  all_goals first
  | (simp only [List.mem_singleton] at hc; rw [hc]; decide)
  | (rcases List.mem_cons.mp hc with h | h
     · rw [h]; decide
     · rw [List.eq_of_mem_replicate h]; decide)

theorem compressAux_chars (u : List Char) :
    ∀ zc, ∀ c ∈ compressAux u zc, c ∈ u ∨ c ∈ "0.:;?!&".data := by
  induction u with
  | nil =>
    intro zc c hc
    right
    rw [compressAux] at hc
    split_ifs at hc with h
    · exact encode_zero_run_chars zc c hc
    · simp at hc
  | cons a rest ih =>
    intro zc c hc
    rw [compressAux] at hc
    split_ifs at hc with h h2
    · rcases ih (zc + 1) c hc with h2 | h2
      · exact Or.inl (List.mem_cons_of_mem a h2)
      · exact Or.inr h2
    · rcases List.mem_append.mp hc with h3 | h3
      · exact Or.inr (encode_zero_run_chars zc c h3)
      · rcases List.mem_cons.mp h3 with h4 | h4
        · exact Or.inl (h4 ▸ List.mem_cons_self a rest)
        · rcases ih 0 c h4 with h5 | h5
          · exact Or.inl (List.mem_cons_of_mem a h5)
          · exact Or.inr h5
    · rw [List.nil_append] at hc
      rcases List.mem_cons.mp hc with h4 | h4
      · exact Or.inl (h4 ▸ List.mem_cons_self a rest)
      · rcases ih 0 c h4 with h5 | h5
        · exact Or.inl (List.mem_cons_of_mem a h5)
        · exact Or.inr h5

theorem compressAux_cons_ne {a : Char} (rest : List Char) (h : a ≠ '0') :
    compressAux (a :: rest) 0 = a :: compressAux rest 0 := by
  rw [compressAux, if_neg h]
  simp

theorem compression_symbol_not_sign :
    ∀ c ∈ "0.:;?!&".data, c ≠ '+' ∧ c ≠ '-' := by decide

/-! ### Evaluating the decode walk -/

theorem decodePure_guards (s : List Char)
    (h1 : extract_datetime_part s ≠ [])
    (h2 : ¬((extract_datetime_part s).getD 0 ' ' ≠ '0' ∧ (extract_datetime_part s).length < 3))
    (h3 : ¬((expand_zeros (extract_datetime_part s)).length < 7))
    (h4 : (expand_zeros (extract_datetime_part s)).all is_valid_encoded_char = true) :
    decodePure (some s) =
      walkFields (expand_zeros (extract_datetime_part s)) (parse_timezone s) := by
  rw [decodePure]
  dsimp only
  rw [if_neg h1, if_neg h2, if_neg h3, if_neg (fun hc => hc h4)]

theorem readSingleP_present {alphabet u : List Char} {pos : Nat} {v : Int}
    (hlt : pos < u.length) (hc : u.getD pos ' ' ≠ '0')
    (hfind : strFind alphabet (u.getD pos ' ') = v) (hv : v ≠ -1) :
    readSingleP alphabet u pos = some (v, pos + 1) := by
  unfold readSingleP
  rw [if_pos hlt]
  dsimp only
  rw [if_neg hc, hfind, if_neg hv]

theorem readSingleP_absent {alphabet u : List Char} {pos : Nat}
    (hlt : pos < u.length) (hc : u.getD pos ' ' = '0') :
    readSingleP alphabet u pos = some (-1, pos + 1) := by
  unfold readSingleP
  rw [if_pos hlt]
  dsimp only
  rw [hc, if_pos rfl]

theorem readYearP_present {u : List Char} {y : Nat}
    (hlen : 2 < u.length) (hc : u.getD 0 ' ' ≠ '0')
    (htake : (u.drop 0).take 3 = yearChars y) (hy : y ≤ 226980) :
    readYearP u = some ((y : Int), 3) := by
  unfold readYearP
  rw [if_pos (by omega : 0 < u.length)]
  dsimp only
  rw [if_neg hc, if_pos (by omega : 0 + 2 < u.length), htake, decode_year_encode y hy,
    if_neg (by omega : ¬((y : Nat) : Int) = -1)]

theorem readDayP_present {u : List Char} {pos : Nat} {d : Nat}
    (hlt : pos < u.length) (hc : u.getD pos ' ' ≠ '0')
    (hfind : strFind DAYS (u.getD pos ' ') = ((d - 1 : Nat) : Int)) (hd1 : 1 ≤ d) :
    readDayP u pos = some ((d : Int), pos + 1) := by
  unfold readDayP
  rw [if_pos hlt]
  dsimp only
  rw [if_neg hc, hfind]
  have he : ((d - 1 : Nat) : Int) + 1 = (d : Int) := by omega
  rw [he, if_neg (by omega : ¬(d : Int) = 0)]

theorem readMillisP_zero {u : List Char} {pos : Nat}
    (hlt : pos < u.length) (hc : u.getD pos ' ' = '0') :
    readMillisP u pos = some (0, pos + 1) := by
  unfold readMillisP
  rw [if_pos hlt]
  dsimp only
  rw [hc, if_pos rfl]

theorem readMillisP_present {u : List Char} {pos : Nat} {ms : Nat}
    (hlt1 : pos + 1 < u.length) (hc : u.getD pos ' ' ≠ '0')
    (htake : (u.drop pos).take 2 =
      [FIRST_CHAR.getD (ms / 25) ' ', SECOND_CHAR.getD (ms % 25) ' '])
    (hms : ms ≤ 999) :
    readMillisP u pos = some ((ms : Int), pos + 2) := by
  unfold readMillisP
  rw [if_pos (by omega : pos < u.length)]
  dsimp only
  rw [if_neg hc, if_pos hlt1, htake, decode_encode_millis_nat ms hms,
    if_neg (by omega : ¬((ms : Nat) : Int) = -1)]

theorem walkFields_date_only (y m d : Nat) (tzs : Option (List Char))
    (hy : y ≤ 226980) (hm : m ≤ 11) (hd1 : 1 ≤ d) (hd : d ≤ 31) :
    walkFields (yearChars y ++ [MONTHS.getD m ' ', DAYS.getD (d - 1) ' ', '0', '0', '0', '0'])
      tzs = from_primitives y m d 0 0 0 0 tzs := by
  have hMm : m < MONTHS.length := by rw [MONTHS_length]; omega
  have hDd : d - 1 < DAYS.length := by rw [DAYS_length]; omega
  have hlen : (yearChars y ++ [MONTHS.getD m ' ', DAYS.getD (d - 1) ' ',
      '0', '0', '0', '0']).length = 9 := rfl
  have e1 : readYearP (yearChars y ++ [MONTHS.getD m ' ', DAYS.getD (d - 1) ' ',
      '0', '0', '0', '0']) = some ((y : Int), 3) :=
    readYearP_present (by omega)
      (year_char_ne_zero (getD_mem (by rw [YEAR_CHARS_length]; omega))) rfl hy
  have e2 : readSingleP MONTHS (yearChars y ++ [MONTHS.getD m ' ', DAYS.getD (d - 1) ' ',
      '0', '0', '0', '0']) 3 = some ((m : Int), 4) :=
    readSingleP_present (by omega) (months_char_ne_zero (getD_mem hMm))
      (strFind_getD MONTHS_nodup m hMm) (by omega)
  have e3 : readDayP (yearChars y ++ [MONTHS.getD m ' ', DAYS.getD (d - 1) ' ',
      '0', '0', '0', '0']) 4 = some ((d : Int), 5) :=
    readDayP_present (by omega) (days_char_ne_zero (getD_mem hDd))
      (strFind_getD DAYS_nodup (d - 1) hDd) hd1
  have e4 : readSingleP HOURS (yearChars y ++ [MONTHS.getD m ' ', DAYS.getD (d - 1) ' ',
      '0', '0', '0', '0']) 5 = some (-1, 6) := readSingleP_absent (by omega) rfl
  have e5 : readSingleP MINUTES (yearChars y ++ [MONTHS.getD m ' ', DAYS.getD (d - 1) ' ',
      '0', '0', '0', '0']) 6 = some (-1, 7) := readSingleP_absent (by omega) rfl
  have e6 : readSingleP MINUTES (yearChars y ++ [MONTHS.getD m ' ', DAYS.getD (d - 1) ' ',
      '0', '0', '0', '0']) 7 = some (-1, 8) := readSingleP_absent (by omega) rfl
  have e7 : readMillisP (yearChars y ++ [MONTHS.getD m ' ', DAYS.getD (d - 1) ' ',
      '0', '0', '0', '0']) 8 = some (0, 9) := readMillisP_zero (by omega) rfl
  unfold walkFields
  rw [e1]
  dsimp only
  rw [e2]
  dsimp only
  rw [e3]
  dsimp only
  rw [e4]
  dsimp only
  rw [e5]
  dsimp only
  rw [e6]
  dsimp only
  rw [e7]
  dsimp only
  rw [if_neg (by omega : ¬((y : Int) = -1 ∧ (m : Int) = -1 ∧ (d : Int) = -1 ∧
    (-1 : Int) = -1 ∧ (-1 : Int) = -1 ∧ (-1 : Int) = -1 ∧ (0 : Int) = -1))]
  rw [if_neg (by omega : ¬(y : Int) = -1), if_neg (by omega : ¬(m : Int) = -1),
    if_neg (by omega : ¬(d : Int) = -1), if_pos (rfl : (-1 : Int) = -1),
    if_neg (by omega : ¬(0 : Int) = -1)]
  simp only [Int.toNat_natCast]
  rfl

theorem walkFields_date_hour (y m d h : Nat) (tzs : Option (List Char))
    (hy : y ≤ 226980) (hm : m ≤ 11) (hd1 : 1 ≤ d) (hd : d ≤ 31) (hh : h ≤ 23) :
    walkFields (yearChars y ++ [MONTHS.getD m ' ', DAYS.getD (d - 1) ' ', HOURS.getD h ' ',
      '0', '0', '0']) tzs = from_primitives y m d h 0 0 0 tzs := by
  have hMm : m < MONTHS.length := by rw [MONTHS_length]; omega
  have hDd : d - 1 < DAYS.length := by rw [DAYS_length]; omega
  have hHh : h < HOURS.length := by rw [HOURS_length]; omega
  have hlen : (yearChars y ++ [MONTHS.getD m ' ', DAYS.getD (d - 1) ' ', HOURS.getD h ' ',
      '0', '0', '0']).length = 9 := rfl
  have e1 : readYearP (yearChars y ++ [MONTHS.getD m ' ', DAYS.getD (d - 1) ' ',
      HOURS.getD h ' ', '0', '0', '0']) = some ((y : Int), 3) :=
    readYearP_present (by omega)
      (year_char_ne_zero (getD_mem (by rw [YEAR_CHARS_length]; omega))) rfl hy
  have e2 : readSingleP MONTHS (yearChars y ++ [MONTHS.getD m ' ', DAYS.getD (d - 1) ' ',
      HOURS.getD h ' ', '0', '0', '0']) 3 = some ((m : Int), 4) :=
    readSingleP_present (by omega) (months_char_ne_zero (getD_mem hMm))
      (strFind_getD MONTHS_nodup m hMm) (by omega)
  have e3 : readDayP (yearChars y ++ [MONTHS.getD m ' ', DAYS.getD (d - 1) ' ',
      HOURS.getD h ' ', '0', '0', '0']) 4 = some ((d : Int), 5) :=
    readDayP_present (by omega) (days_char_ne_zero (getD_mem hDd))
      (strFind_getD DAYS_nodup (d - 1) hDd) hd1
  have e4 : readSingleP HOURS (yearChars y ++ [MONTHS.getD m ' ', DAYS.getD (d - 1) ' ',
      HOURS.getD h ' ', '0', '0', '0']) 5 = some ((h : Int), 6) :=
    readSingleP_present (by omega) (hours_char_ne_zero (getD_mem hHh))
      (strFind_getD HOURS_nodup h hHh) (by omega)
  have e5 : readSingleP MINUTES (yearChars y ++ [MONTHS.getD m ' ', DAYS.getD (d - 1) ' ',
      HOURS.getD h ' ', '0', '0', '0']) 6 = some (-1, 7) := readSingleP_absent (by omega) rfl
  have e6 : readSingleP MINUTES (yearChars y ++ [MONTHS.getD m ' ', DAYS.getD (d - 1) ' ',
      HOURS.getD h ' ', '0', '0', '0']) 7 = some (-1, 8) := readSingleP_absent (by omega) rfl
  have e7 : readMillisP (yearChars y ++ [MONTHS.getD m ' ', DAYS.getD (d - 1) ' ',
      HOURS.getD h ' ', '0', '0', '0']) 8 = some (0, 9) := readMillisP_zero (by omega) rfl
  unfold walkFields
  rw [e1]
  dsimp only
  rw [e2]
  dsimp only
  rw [e3]
  dsimp only
  rw [e4]
  dsimp only
  rw [e5]
  dsimp only
  rw [e6]
  dsimp only
  rw [e7]
  dsimp only
  rw [if_neg (by omega : ¬((y : Int) = -1 ∧ (m : Int) = -1 ∧ (d : Int) = -1 ∧
    (h : Int) = -1 ∧ (-1 : Int) = -1 ∧ (-1 : Int) = -1 ∧ (0 : Int) = -1))]
  rw [if_neg (by omega : ¬(y : Int) = -1), if_neg (by omega : ¬(m : Int) = -1),
    if_neg (by omega : ¬(d : Int) = -1), if_neg (by omega : ¬(h : Int) = -1),
    if_pos (rfl : (-1 : Int) = -1), if_neg (by omega : ¬(0 : Int) = -1)]
  simp only [Int.toNat_natCast]
  rfl

theorem walkFields_full_ms0 (y m d h mi sc : Nat) (tzs : Option (List Char))
    (hy : y ≤ 226980) (hm : m ≤ 11) (hd1 : 1 ≤ d) (hd : d ≤ 31) (hh : h ≤ 23)
    (hmi : mi ≤ 59) (hs : sc ≤ 59) :
    walkFields (yearChars y ++ [MONTHS.getD m ' ', DAYS.getD (d - 1) ' ', HOURS.getD h ' ',
      MINUTES.getD mi ' ', MINUTES.getD sc ' ', '0']) tzs =
      from_primitives y m d h mi sc 0 tzs := by
  have hMm : m < MONTHS.length := by rw [MONTHS_length]; omega
  have hDd : d - 1 < DAYS.length := by rw [DAYS_length]; omega
  have hHh : h < HOURS.length := by rw [HOURS_length]; omega
  have hMi : mi < MINUTES.length := by rw [MINUTES_length]; omega
  have hSc : sc < MINUTES.length := by rw [MINUTES_length]; omega
  have hlen : (yearChars y ++ [MONTHS.getD m ' ', DAYS.getD (d - 1) ' ', HOURS.getD h ' ',
      MINUTES.getD mi ' ', MINUTES.getD sc ' ', '0']).length = 9 := rfl
  have e1 : readYearP (yearChars y ++ [MONTHS.getD m ' ', DAYS.getD (d - 1) ' ',
      HOURS.getD h ' ', MINUTES.getD mi ' ', MINUTES.getD sc ' ', '0']) =
      some ((y : Int), 3) :=
    readYearP_present (by omega)
      (year_char_ne_zero (getD_mem (by rw [YEAR_CHARS_length]; omega))) rfl hy
  have e2 : readSingleP MONTHS (yearChars y ++ [MONTHS.getD m ' ', DAYS.getD (d - 1) ' ',
      HOURS.getD h ' ', MINUTES.getD mi ' ', MINUTES.getD sc ' ', '0']) 3 =
      some ((m : Int), 4) :=
    readSingleP_present (by omega) (months_char_ne_zero (getD_mem hMm))
      (strFind_getD MONTHS_nodup m hMm) (by omega)
  have e3 : readDayP (yearChars y ++ [MONTHS.getD m ' ', DAYS.getD (d - 1) ' ',
      HOURS.getD h ' ', MINUTES.getD mi ' ', MINUTES.getD sc ' ', '0']) 4 =
      some ((d : Int), 5) :=
    readDayP_present (by omega) (days_char_ne_zero (getD_mem hDd))
      (strFind_getD DAYS_nodup (d - 1) hDd) hd1
  have e4 : readSingleP HOURS (yearChars y ++ [MONTHS.getD m ' ', DAYS.getD (d - 1) ' ',
      HOURS.getD h ' ', MINUTES.getD mi ' ', MINUTES.getD sc ' ', '0']) 5 =
      some ((h : Int), 6) :=
    readSingleP_present (by omega) (hours_char_ne_zero (getD_mem hHh))
      (strFind_getD HOURS_nodup h hHh) (by omega)
  have e5 : readSingleP MINUTES (yearChars y ++ [MONTHS.getD m ' ', DAYS.getD (d - 1) ' ',
      HOURS.getD h ' ', MINUTES.getD mi ' ', MINUTES.getD sc ' ', '0']) 6 =
      some ((mi : Int), 7) :=
    readSingleP_present (by omega) (minutes_char_ne_zero (getD_mem hMi))
      (strFind_getD MINUTES_nodup mi hMi) (by omega)
  have e6 : readSingleP MINUTES (yearChars y ++ [MONTHS.getD m ' ', DAYS.getD (d - 1) ' ',
      HOURS.getD h ' ', MINUTES.getD mi ' ', MINUTES.getD sc ' ', '0']) 7 =
      some ((sc : Int), 8) :=
    readSingleP_present (by omega) (minutes_char_ne_zero (getD_mem hSc))
      (strFind_getD MINUTES_nodup sc hSc) (by omega)
  have e7 : readMillisP (yearChars y ++ [MONTHS.getD m ' ', DAYS.getD (d - 1) ' ',
      HOURS.getD h ' ', MINUTES.getD mi ' ', MINUTES.getD sc ' ', '0']) 8 =
      some (0, 9) := readMillisP_zero (by omega) rfl
  unfold walkFields
  rw [e1]
  dsimp only
  rw [e2]
  dsimp only
  rw [e3]
  dsimp only
  rw [e4]
  dsimp only
  rw [e5]
  dsimp only
  rw [e6]
  dsimp only
  rw [e7]
  dsimp only
  rw [if_neg (by omega : ¬((y : Int) = -1 ∧ (m : Int) = -1 ∧ (d : Int) = -1 ∧
    (h : Int) = -1 ∧ (mi : Int) = -1 ∧ (sc : Int) = -1 ∧ (0 : Int) = -1))]
  rw [if_neg (by omega : ¬(y : Int) = -1), if_neg (by omega : ¬(m : Int) = -1),
    if_neg (by omega : ¬(d : Int) = -1), if_neg (by omega : ¬(h : Int) = -1),
    if_neg (by omega : ¬(mi : Int) = -1), if_neg (by omega : ¬(sc : Int) = -1),
    if_neg (by omega : ¬(0 : Int) = -1)]
  simp only [Int.toNat_natCast]
  rfl

theorem walkFields_full_ms (y m d h mi sc ms : Nat) (tzs : Option (List Char))
    (hy : y ≤ 226980) (hm : m ≤ 11) (hd1 : 1 ≤ d) (hd : d ≤ 31) (hh : h ≤ 23)
    (hmi : mi ≤ 59) (hs : sc ≤ 59) (hms : ms ≤ 999) :
    walkFields (yearChars y ++ [MONTHS.getD m ' ', DAYS.getD (d - 1) ' ', HOURS.getD h ' ',
      MINUTES.getD mi ' ', MINUTES.getD sc ' ', FIRST_CHAR.getD (ms / 25) ' ',
      SECOND_CHAR.getD (ms % 25) ' ']) tzs =
      from_primitives y m d h mi sc ms tzs := by
  have hMm : m < MONTHS.length := by rw [MONTHS_length]; omega
  have hDd : d - 1 < DAYS.length := by rw [DAYS_length]; omega
  have hHh : h < HOURS.length := by rw [HOURS_length]; omega
  have hMi : mi < MINUTES.length := by rw [MINUTES_length]; omega
  have hSc : sc < MINUTES.length := by rw [MINUTES_length]; omega
  have hF1 : ms / 25 < FIRST_CHAR.length := by rw [FIRST_CHAR_length]; omega
  have hlen : (yearChars y ++ [MONTHS.getD m ' ', DAYS.getD (d - 1) ' ', HOURS.getD h ' ',
      MINUTES.getD mi ' ', MINUTES.getD sc ' ', FIRST_CHAR.getD (ms / 25) ' ',
      SECOND_CHAR.getD (ms % 25) ' ']).length = 10 := rfl
  have e1 : readYearP (yearChars y ++ [MONTHS.getD m ' ', DAYS.getD (d - 1) ' ',
      HOURS.getD h ' ', MINUTES.getD mi ' ', MINUTES.getD sc ' ',
      FIRST_CHAR.getD (ms / 25) ' ', SECOND_CHAR.getD (ms % 25) ' ']) =
      some ((y : Int), 3) :=
    readYearP_present (by omega)
      (year_char_ne_zero (getD_mem (by rw [YEAR_CHARS_length]; omega))) rfl hy
  have e2 : readSingleP MONTHS (yearChars y ++ [MONTHS.getD m ' ', DAYS.getD (d - 1) ' ',
      HOURS.getD h ' ', MINUTES.getD mi ' ', MINUTES.getD sc ' ',
      FIRST_CHAR.getD (ms / 25) ' ', SECOND_CHAR.getD (ms % 25) ' ']) 3 =
      some ((m : Int), 4) :=
    readSingleP_present (by omega) (months_char_ne_zero (getD_mem hMm))
      (strFind_getD MONTHS_nodup m hMm) (by omega)
  have e3 : readDayP (yearChars y ++ [MONTHS.getD m ' ', DAYS.getD (d - 1) ' ',
      HOURS.getD h ' ', MINUTES.getD mi ' ', MINUTES.getD sc ' ',
      FIRST_CHAR.getD (ms / 25) ' ', SECOND_CHAR.getD (ms % 25) ' ']) 4 =
      some ((d : Int), 5) :=
    readDayP_present (by omega) (days_char_ne_zero (getD_mem hDd))
      (strFind_getD DAYS_nodup (d - 1) hDd) hd1
  have e4 : readSingleP HOURS (yearChars y ++ [MONTHS.getD m ' ', DAYS.getD (d - 1) ' ',
      HOURS.getD h ' ', MINUTES.getD mi ' ', MINUTES.getD sc ' ',
      FIRST_CHAR.getD (ms / 25) ' ', SECOND_CHAR.getD (ms % 25) ' ']) 5 =
      some ((h : Int), 6) :=
    readSingleP_present (by omega) (hours_char_ne_zero (getD_mem hHh))
      (strFind_getD HOURS_nodup h hHh) (by omega)
  have e5 : readSingleP MINUTES (yearChars y ++ [MONTHS.getD m ' ', DAYS.getD (d - 1) ' ',
      HOURS.getD h ' ', MINUTES.getD mi ' ', MINUTES.getD sc ' ',
      FIRST_CHAR.getD (ms / 25) ' ', SECOND_CHAR.getD (ms % 25) ' ']) 6 =
      some ((mi : Int), 7) :=
    readSingleP_present (by omega) (minutes_char_ne_zero (getD_mem hMi))
      (strFind_getD MINUTES_nodup mi hMi) (by omega)
  have e6 : readSingleP MINUTES (yearChars y ++ [MONTHS.getD m ' ', DAYS.getD (d - 1) ' ',
      HOURS.getD h ' ', MINUTES.getD mi ' ', MINUTES.getD sc ' ',
      FIRST_CHAR.getD (ms / 25) ' ', SECOND_CHAR.getD (ms % 25) ' ']) 7 =
      some ((sc : Int), 8) :=
    readSingleP_present (by omega) (minutes_char_ne_zero (getD_mem hSc))
      (strFind_getD MINUTES_nodup sc hSc) (by omega)
  have e7 : readMillisP (yearChars y ++ [MONTHS.getD m ' ', DAYS.getD (d - 1) ' ',
      HOURS.getD h ' ', MINUTES.getD mi ' ', MINUTES.getD sc ' ',
      FIRST_CHAR.getD (ms / 25) ' ', SECOND_CHAR.getD (ms % 25) ' ']) 8 =
      some ((ms : Int), 10) :=
    readMillisP_present (by omega) (first_char_ne_zero (getD_mem hF1)) rfl hms
  unfold walkFields
  rw [e1]
  dsimp only
  rw [e2]
  dsimp only
  rw [e3]
  dsimp only
  rw [e4]
  dsimp only
  rw [e5]
  dsimp only
  rw [e6]
  dsimp only
  rw [e7]
  dsimp only
  rw [if_neg (by omega : ¬((y : Int) = -1 ∧ (m : Int) = -1 ∧ (d : Int) = -1 ∧
    (h : Int) = -1 ∧ (mi : Int) = -1 ∧ (sc : Int) = -1 ∧ (ms : Int) = -1))]
  rw [if_neg (by omega : ¬(y : Int) = -1), if_neg (by omega : ¬(m : Int) = -1),
    if_neg (by omega : ¬(d : Int) = -1), if_neg (by omega : ¬(h : Int) = -1),
    if_neg (by omega : ¬(mi : Int) = -1), if_neg (by omega : ¬(sc : Int) = -1),
    if_neg (by omega : ¬(ms : Int) = -1)]
  simp only [Int.toNat_natCast]

/-! ### Evaluating the encoder -/

/-- The affix-appending tail of `encode_date_time` (mirrors its final
`if timezone:` step). -/
def affixed (body : List Char) (tzo : Option (List Char)) : List Char :=
  match tzo with
  | some t => if t = [] then body else body ++ t
  | none => body

theorem MONTHS_len_int : (MONTHS.length : Int) = 12 := by norm_num [MONTHS]

theorem DAYS_len_int : (DAYS.length : Int) = 31 := by norm_num [DAYS]

theorem HOURS_len_int : (HOURS.length : Int) = 24 := by norm_num [HOURS]

theorem MINUTES_len_int : (MINUTES.length : Int) = 60 := by norm_num [MINUTES]

theorem encode_date_time_date_only (y m d : Nat) (tzo : Option (List Char))
    (hy : y ≤ 226980) (hm : m ≤ 11) (hd1 : 1 ≤ d) (hd : d ≤ 31) :
    encode_date_time (some (y : Int)) (some (m : Int)) (some (d : Int)) none none none none
      tzo =
      affixed (compress_zeros (yearChars y ++
        [MONTHS.getD m ' ', DAYS.getD (d - 1) ' ', '0', '0', '0'] ++ ['0'])) tzo := by
  have hdt : ((d : Int) - 1).toNat = d - 1 := by omega
  rw [encode_date_time, encode_date_time_core]
  dsimp only
  rw [if_pos (by omega : (y : Int) ≥ 0), encode_year_eq y hy]
  simp only [Option.pure_def, Option.bind_eq_bind, Option.some_bind]
  rw [if_pos (by omega : (m : Int) ≥ 0),
    if_neg (by rw [MONTHS_len_int]; omega : ¬((m : Int) < 0 ∨ (m : Int) ≥ (MONTHS.length : Int)))]
  rw [if_pos (by omega : (d : Int) ≥ 1),
    if_neg (by rw [DAYS_len_int]; omega : ¬((d : Int) < 1 ∨ (d : Int) > (DAYS.length : Int)))]
  simp only [Int.toNat_natCast, hdt]
  cases tzo with
  | none => rfl
  | some t =>
    dsimp only [affixed]
    split_ifs <;> rfl

theorem encode_date_time_date_hour (y m d h : Nat) (tzo : Option (List Char))
    (hy : y ≤ 226980) (hm : m ≤ 11) (hd1 : 1 ≤ d) (hd : d ≤ 31) (hh : h ≤ 23) :
    encode_date_time (some (y : Int)) (some (m : Int)) (some (d : Int)) (some (h : Int))
      none none none tzo =
      affixed (compress_zeros (yearChars y ++
        [MONTHS.getD m ' ', DAYS.getD (d - 1) ' ', HOURS.getD h ' ', '0', '0'] ++ ['0'])) tzo := by
  have hdt : ((d : Int) - 1).toNat = d - 1 := by omega
  rw [encode_date_time, encode_date_time_core]
  dsimp only
  rw [if_pos (by omega : (y : Int) ≥ 0), encode_year_eq y hy]
  simp only [Option.pure_def, Option.bind_eq_bind, Option.some_bind]
  rw [if_pos (by omega : (m : Int) ≥ 0),
    if_neg (by rw [MONTHS_len_int]; omega : ¬((m : Int) < 0 ∨ (m : Int) ≥ (MONTHS.length : Int)))]
  rw [if_pos (by omega : (d : Int) ≥ 1),
    if_neg (by rw [DAYS_len_int]; omega : ¬((d : Int) < 1 ∨ (d : Int) > (DAYS.length : Int)))]
  rw [if_pos (by omega : (h : Int) ≥ 0),
    if_neg (by rw [HOURS_len_int]; omega : ¬((h : Int) < 0 ∨ (h : Int) ≥ (HOURS.length : Int)))]
  simp only [Int.toNat_natCast, hdt]
  cases tzo with
  | none => rfl
  | some t =>
    dsimp only [affixed]
    split_ifs <;> rfl

theorem encode_date_time_full_ms0 (y m d h mi sc : Nat) (tzo : Option (List Char))
    (hy : y ≤ 226980) (hm : m ≤ 11) (hd1 : 1 ≤ d) (hd : d ≤ 31) (hh : h ≤ 23)
    (hmi : mi ≤ 59) (hs : sc ≤ 59) :
    encode_date_time (some (y : Int)) (some (m : Int)) (some (d : Int)) (some (h : Int))
      (some (mi : Int)) (some (sc : Int)) (some (0 : Int)) tzo =
      affixed (compress_zeros (yearChars y ++
        [MONTHS.getD m ' ', DAYS.getD (d - 1) ' ', HOURS.getD h ' ', MINUTES.getD mi ' ',
          MINUTES.getD sc ' '] ++ ['0'])) tzo := by
  have hdt : ((d : Int) - 1).toNat = d - 1 := by omega
  have cy : ((y : Int) ≥ 0) = True := eq_true (by omega)
  have cm1 : ((m : Int) ≥ 0) = True := eq_true (by omega)
  have cm2 : ((m : Int) < 0 ∨ (m : Int) ≥ (MONTHS.length : Int)) = False :=
    eq_false (by rw [MONTHS_len_int]; omega)
  have cd1 : ((d : Int) ≥ 1) = True := eq_true (by omega)
  have cd2 : ((d : Int) < 1 ∨ (d : Int) > (DAYS.length : Int)) = False :=
    eq_false (by rw [DAYS_len_int]; omega)
  have ch1 : ((h : Int) ≥ 0) = True := eq_true (by omega)
  have ch2 : ((h : Int) < 0 ∨ (h : Int) ≥ (HOURS.length : Int)) = False :=
    eq_false (by rw [HOURS_len_int]; omega)
  have cmi1 : ((mi : Int) ≥ 0) = True := eq_true (by omega)
  have cmi2 : ((mi : Int) < 0 ∨ (mi : Int) ≥ (MINUTES.length : Int)) = False :=
    eq_false (by rw [MINUTES_len_int]; omega)
  have cs1 : ((sc : Int) ≥ 0) = True := eq_true (by omega)
  have cs2 : ((sc : Int) < 0 ∨ (sc : Int) ≥ (MINUTES.length : Int)) = False :=
    eq_false (by rw [MINUTES_len_int]; omega)
  rw [encode_date_time, encode_date_time_core]
  simp only [cy, cm1, cm2, cd1, cd2, ch1, ch2, cmi1, cmi2, cs1, cs2, if_true, if_false,
    encode_year_eq y hy, Option.pure_def, Option.bind_eq_bind, Option.some_bind,
    Int.toNat_natCast, hdt, ge_iff_le, le_refl, ite_true]
  cases tzo with
  | none => rfl
  | some t =>
    dsimp only [affixed]
    split_ifs <;> rfl

theorem encode_date_time_full_ms (y m d h mi sc ms : Nat) (tzo : Option (List Char))
    (hy : y ≤ 226980) (hm : m ≤ 11) (hd1 : 1 ≤ d) (hd : d ≤ 31) (hh : h ≤ 23)
    (hmi : mi ≤ 59) (hs : sc ≤ 59) (hms : ms ≤ 999) (hms0 : ms ≠ 0) :
    encode_date_time (some (y : Int)) (some (m : Int)) (some (d : Int)) (some (h : Int))
      (some (mi : Int)) (some (sc : Int)) (some (ms : Int)) tzo =
      affixed (compress_zeros (yearChars y ++
        [MONTHS.getD m ' ', DAYS.getD (d - 1) ' ', HOURS.getD h ' ', MINUTES.getD mi ' ',
          MINUTES.getD sc ' '] ++
        [FIRST_CHAR.getD (ms / 25) ' ', SECOND_CHAR.getD (ms % 25) ' '])) tzo := by
  have hdt : ((d : Int) - 1).toNat = d - 1 := by omega
  have cy : ((y : Int) ≥ 0) = True := eq_true (by omega)
  have cm1 : ((m : Int) ≥ 0) = True := eq_true (by omega)
  have cm2 : ((m : Int) < 0 ∨ (m : Int) ≥ (MONTHS.length : Int)) = False :=
    eq_false (by rw [MONTHS_len_int]; omega)
  have cd1 : ((d : Int) ≥ 1) = True := eq_true (by omega)
  have cd2 : ((d : Int) < 1 ∨ (d : Int) > (DAYS.length : Int)) = False :=
    eq_false (by rw [DAYS_len_int]; omega)
  have ch1 : ((h : Int) ≥ 0) = True := eq_true (by omega)
  have ch2 : ((h : Int) < 0 ∨ (h : Int) ≥ (HOURS.length : Int)) = False :=
    eq_false (by rw [HOURS_len_int]; omega)
  have cmi1 : ((mi : Int) ≥ 0) = True := eq_true (by omega)
  have cmi2 : ((mi : Int) < 0 ∨ (mi : Int) ≥ (MINUTES.length : Int)) = False :=
    eq_false (by rw [MINUTES_len_int]; omega)
  have cs1 : ((sc : Int) ≥ 0) = True := eq_true (by omega)
  have cs2 : ((sc : Int) < 0 ∨ (sc : Int) ≥ (MINUTES.length : Int)) = False :=
    eq_false (by rw [MINUTES_len_int]; omega)
  have cms1 : ((ms : Int) ≥ 0) = True := eq_true (by omega)
  have cms2 : ((ms : Int) = 0) = False := eq_false (by omega)
  rw [encode_date_time, encode_date_time_core]
  simp only [cy, cm1, cm2, cd1, cd2, ch1, ch2, cmi1, cmi2, cs1, cs2, cms1, cms2,
    if_true, if_false, encode_year_eq y hy, encode_millis_eq ms hms, Option.pure_def,
    Option.bind_eq_bind, Option.some_bind, Int.toNat_natCast, hdt]
  cases tzo with
  | none => rfl
  | some t =>
    dsimp only [affixed]
    split_ifs <;> rfl

theorem encode_fp_date_only (y m d : Nat) (tz : Option (List Char))
    (hy : y ≤ 226980) (hm : m ≤ 11) (hd1 : 1 ≤ d) (hd : d ≤ 31) :
    BitDT.encode (from_primitives y m d 0 0 0 0 tz) =
      encode_date_time (some (y : Int)) (some (m : Int)) (some (d : Int)) none none none none
        (get_timezone (from_primitives y m d 0 0 0 0 tz)) := by
  have hT : determine_date_type y m d 0 0 0 0 = TYPE_DATE_ONLY :=
    determine_date_only y m d 0 0 0 0 hd1 ⟨rfl, rfl, rfl, rfl⟩
  have hgy := get_year_fp y m d 0 0 0 0 tz hy hm hd (by omega) (by omega) (by omega)
    (by omega) (by rw [hT]; decide) (by rw [hT]; decide)
  have hgm := get_month_fp y m d 0 0 0 0 tz hy hm hd (by omega) (by omega) (by omega)
    (by omega) (by rw [hT]; decide) (by rw [hT]; decide)
  have hgd := get_day_fp y m d 0 0 0 0 tz hy hm hd (by omega) (by omega) (by omega)
    (by omega) (by rw [hT]; decide) (by rw [hT]; decide)
  have hne : ¬(is_empty (from_primitives y m d 0 0 0 0 tz) = true) := by
    simp [is_empty, from_primitives_date_type, hT, TYPE_DATE_ONLY, TYPE_EMPTY]
  have k1 : (TYPE_DATE_ONLY = TYPE_TIME_ONLY) = False := eq_false (by decide)
  have k2 : (TYPE_DATE_ONLY = TYPE_DATE_ONLY) = True := eq_true rfl
  have k3 : (TYPE_DATE_ONLY = TYPE_DATE_ONLY ∨ TYPE_DATE_ONLY = TYPE_DATE_HOUR) = True :=
    eq_true (Or.inl rfl)
  have n1 : ((y : Int) = -1) = False := eq_false (by omega)
  have n2 : ((m : Int) = -1) = False := eq_false (by omega)
  have n3 : ((d : Int) = -1) = False := eq_false (by omega)
  have n4 : ((-1 : Int) = -1) = True := eq_true rfl
  rw [BitDT.encode, if_neg hne]
  dsimp only
  simp only [from_primitives_date_type, hT, k1, k2, k3, if_true, if_false, true_or, or_true,
    false_or, hgy, hgm, hgd, n1, n2, n3, n4]

theorem encode_fp_date_hour (y m d h : Nat) (tz : Option (List Char))
    (hy : y ≤ 226980) (hm : m ≤ 11) (hd1 : 1 ≤ d) (hd : d ≤ 31) (hh : h ≤ 23) (hh0 : h ≠ 0) :
    BitDT.encode (from_primitives y m d h 0 0 0 tz) =
      encode_date_time (some (y : Int)) (some (m : Int)) (some (d : Int)) (some (h : Int))
        none none none (get_timezone (from_primitives y m d h 0 0 0 tz)) := by
  have hT : determine_date_type y m d h 0 0 0 = TYPE_DATE_HOUR :=
    determine_date_hour y m d h 0 0 0 hd1 ⟨rfl, rfl, rfl⟩ hh0
  have hgy := get_year_fp y m d h 0 0 0 tz hy hm hd hh (by omega) (by omega)
    (by omega) (by rw [hT]; decide) (by rw [hT]; decide)
  have hgm := get_month_fp y m d h 0 0 0 tz hy hm hd hh (by omega) (by omega)
    (by omega) (by rw [hT]; decide) (by rw [hT]; decide)
  have hgd := get_day_fp y m d h 0 0 0 tz hy hm hd hh (by omega) (by omega)
    (by omega) (by rw [hT]; decide) (by rw [hT]; decide)
  have hgh := get_hour_fp y m d h 0 0 0 tz hy hm hd hh (by omega) (by omega)
    (by omega) (by rw [hT]; decide) (by rw [hT]; decide)
  have hne : ¬(is_empty (from_primitives y m d h 0 0 0 tz) = true) := by
    simp [is_empty, from_primitives_date_type, hT, TYPE_DATE_HOUR, TYPE_EMPTY]
  have k1 : (TYPE_DATE_HOUR = TYPE_TIME_ONLY) = False := eq_false (by decide)
  have k2 : (TYPE_DATE_HOUR = TYPE_DATE_ONLY) = False := eq_false (by decide)
  have k3 : (TYPE_DATE_HOUR = TYPE_DATE_HOUR) = True := eq_true rfl
  have n1 : ((y : Int) = -1) = False := eq_false (by omega)
  have n2 : ((m : Int) = -1) = False := eq_false (by omega)
  have n3 : ((d : Int) = -1) = False := eq_false (by omega)
  have n5 : ((h : Int) = -1) = False := eq_false (by omega)
  have n4 : ((-1 : Int) = -1) = True := eq_true rfl
  rw [BitDT.encode, if_neg hne]
  dsimp only
  simp only [from_primitives_date_type, hT, k1, k2, k3, if_true, if_false, true_or, or_true,
    false_or, hgy, hgm, hgd, hgh, n1, n2, n3, n4, n5]

theorem encode_fp_full (y m d h mi sc ms : Nat) (tz : Option (List Char))
    (hy : y ≤ 226980) (hm : m ≤ 11) (hd1 : 1 ≤ d) (hd : d ≤ 31) (hh : h ≤ 23)
    (hmi : mi ≤ 59) (hs : sc ≤ 59) (hms : ms ≤ 999)
    (hnz : ¬(mi = 0 ∧ sc = 0 ∧ ms = 0)) :
    BitDT.encode (from_primitives y m d h mi sc ms tz) =
      encode_date_time (some (y : Int)) (some (m : Int)) (some (d : Int)) (some (h : Int))
        (some (mi : Int)) (some (sc : Int)) (some (ms : Int))
        (get_timezone (from_primitives y m d h mi sc ms tz)) := by
  have hT : determine_date_type y m d h mi sc ms = TYPE_FULL :=
    determine_full y m d h mi sc ms hd1 hnz
  have hgy := get_year_fp y m d h mi sc ms tz hy hm hd hh hmi hs hms
    (by rw [hT]; decide) (by rw [hT]; decide)
  have hgm := get_month_fp y m d h mi sc ms tz hy hm hd hh hmi hs hms
    (by rw [hT]; decide) (by rw [hT]; decide)
  have hgd := get_day_fp y m d h mi sc ms tz hy hm hd hh hmi hs hms
    (by rw [hT]; decide) (by rw [hT]; decide)
  have hgh := get_hour_fp y m d h mi sc ms tz hy hm hd hh hmi hs hms
    (by rw [hT]; decide) (by rw [hT]; decide)
  have hgmi := get_minute_fp y m d h mi sc ms tz hy hm hd hh hmi hs hms hT
  have hgs := get_second_fp y m d h mi sc ms tz hy hm hd hh hmi hs hms hT
  have hgms := get_millis_fp y m d h mi sc ms tz hy hm hd hh hmi hs hms hT
  have hne : ¬(is_empty (from_primitives y m d h mi sc ms tz) = true) := by
    simp [is_empty, from_primitives_date_type, hT, TYPE_FULL, TYPE_EMPTY]
  have k1 : (TYPE_FULL = TYPE_TIME_ONLY) = False := eq_false (by decide)
  have k2 : (TYPE_FULL = TYPE_DATE_ONLY) = False := eq_false (by decide)
  have k3 : (TYPE_FULL = TYPE_DATE_HOUR) = False := eq_false (by decide)
  have n1 : ((y : Int) = -1) = False := eq_false (by omega)
  have n2 : ((m : Int) = -1) = False := eq_false (by omega)
  have n3 : ((d : Int) = -1) = False := eq_false (by omega)
  have n5 : ((h : Int) = -1) = False := eq_false (by omega)
  have n6 : ((mi : Int) = -1) = False := eq_false (by omega)
  have n7 : ((sc : Int) = -1) = False := eq_false (by omega)
  have n8 : ((ms : Int) = -1) = False := eq_false (by omega)
  rw [BitDT.encode, if_neg hne]
  dsimp only
  simp only [from_primitives_date_type, hT, k1, k2, k3, if_true, if_false, true_or, or_true,
    false_or, hgy, hgm, hgd, hgh, hgmi, hgs, hgms, n1, n2, n3, n5, n6, n7, n8]

/-! ### Decoding an encoded body -/

theorem yearChars_mem {c : Char} {y : Nat} (hy : y ≤ 226980) (h : c ∈ yearChars y) :
    c ∈ YEAR_CHARS := by
  have h1 : y / (61 * 61) < YEAR_CHARS.length := by rw [YEAR_CHARS_length]; omega
  have h2 : y / 61 % 61 < YEAR_CHARS.length := by rw [YEAR_CHARS_length]; omega
  have h3 : y % 61 < YEAR_CHARS.length := by rw [YEAR_CHARS_length]; omega
  unfold yearChars at h
  rcases List.mem_cons.mp h with h | h
  · exact h ▸ getD_mem h1
  · rcases List.mem_cons.mp h with h | h
    · exact h ▸ getD_mem h2
    · rcases List.mem_cons.mp h with h | h
      · exact h ▸ getD_mem h3
      · simp at h

theorem body_not_sign {u : List Char} (hu : ∀ c ∈ u, c ∈ allFieldChars) :
    ∀ c ∈ compress_zeros u, c ≠ '+' ∧ c ≠ '-' := by
  intro c hc
  rcases compressAux_chars u 0 c hc with h | h
  · have := allFieldChars_facts c (hu c h)
    exact ⟨this.1, this.2.1⟩
  · exact compression_symbol_not_sign c h

theorem compress_shape {g1 g2 g3 : Char} (rest : List Char)
    (h1 : g1 ≠ '0') (h2 : g2 ≠ '0') (h3 : g3 ≠ '0') :
    compress_zeros (g1 :: g2 :: g3 :: rest) = g1 :: g2 :: g3 :: compressAux rest 0 := by
  rw [compress_zeros, compressAux_cons_ne _ h1, compressAux_cons_ne _ h2,
    compressAux_cons_ne _ h3]

/-- Decoding any string of the shape the encoder produces reduces to the field
walk on the uncompressed body, with the affix as the recovered timezone. -/
theorem decodePure_encoded (g1 g2 g3 : Char) (rest : List Char) (tzS : Option (List Char))
    (hfield : ∀ c ∈ g1 :: g2 :: g3 :: rest, c ∈ allFieldChars)
    (h1 : g1 ≠ '0') (h2 : g2 ≠ '0') (h3 : g3 ≠ '0')
    (hlen : 7 ≤ (g1 :: g2 :: g3 :: rest).length)
    (htzS : tzS = none ∨ ∃ sign digits, tzS = some (sign :: digits) ∧
      (sign = '+' ∨ sign = '-') ∧ (∀ c ∈ digits, c ∈ TIMEZONE_DIGITS) ∧ digits ≠ [] ∧
      is_valid_timezone (sign :: digits) = true) :
    decodePure (some (affixed (compress_zeros (g1 :: g2 :: g3 :: rest)) tzS)) =
      walkFields (g1 :: g2 :: g3 :: rest) tzS := by
  have hexp : expand_zeros (compress_zeros (g1 :: g2 :: g3 :: rest)) =
      g1 :: g2 :: g3 :: rest := by
    rw [compress_zeros, compressAux_expand _ hfield 0]
    rfl
  have hshape := compress_shape rest h1 h2 h3
  have hbodysign := body_not_sign (u := g1 :: g2 :: g3 :: rest) hfield
  have hvalidall : (expand_zeros (compress_zeros (g1 :: g2 :: g3 :: rest))).all
      is_valid_encoded_char = true := by
    rw [hexp, List.all_eq_true]
    intro c hc
    exact (allFieldChars_facts c (hfield c hc)).2.2
  rcases htzS with htz | ⟨sign, digits, htz, hsign, hdig, hdne, hvalid⟩
  · subst htz
    have hparse : parse_timezone (compress_zeros (g1 :: g2 :: g3 :: rest)) = none :=
      parse_timezone_none _ hbodysign
    have hext : extract_datetime_part (compress_zeros (g1 :: g2 :: g3 :: rest)) =
        compress_zeros (g1 :: g2 :: g3 :: rest) := extract_of_parse_none hparse
    rw [show affixed (compress_zeros (g1 :: g2 :: g3 :: rest)) none =
      compress_zeros (g1 :: g2 :: g3 :: rest) from rfl]
    rw [decodePure_guards _ (by rw [hext, hshape]; exact List.cons_ne_nil _ _)
      (by rw [hext, hshape]; intro hcon; simp at hcon; omega)
      (by rw [hext, hexp]; omega)
      (by rw [hext]; exact hvalidall)]
    rw [hext, hexp, hparse]
  · subst htz
    have haff : affixed (compress_zeros (g1 :: g2 :: g3 :: rest)) (some (sign :: digits)) =
        compress_zeros (g1 :: g2 :: g3 :: rest) ++ sign :: digits := by
      unfold affixed
      dsimp only
      rw [if_neg (by simp)]
    have hparse : parse_timezone (compress_zeros (g1 :: g2 :: g3 :: rest) ++
        sign :: digits) = some (sign :: digits) :=
      parse_timezone_append _ digits sign hsign hbodysign hdig hdne hvalid
    have hext : extract_datetime_part (compress_zeros (g1 :: g2 :: g3 :: rest) ++
        sign :: digits) = compress_zeros (g1 :: g2 :: g3 :: rest) :=
      extract_of_parse_append _ digits sign hparse
    rw [haff]
    rw [decodePure_guards _ (by rw [hext, hshape]; exact List.cons_ne_nil _ _)
      (by rw [hext, hshape]; intro hcon; simp at hcon; omega)
      (by rw [hext, hexp]; omega)
      (by rw [hext]; exact hvalidall)]
    rw [hext, hexp, hparse]

set_option maxHeartbeats 1000000 in
/-- C1: for every valid component tuple (year ≤ 226980, month ≤ 11, day 1..31,
hour ≤ 23, minute/second ≤ 59, millis ≤ 999) and timezone among absent, "+00",
"-08", "+0530", "+12", decoding the encoding of the value built from those
primitives returns exactly that value (hence every accessor is reproduced);
timezone "+00" normalizes to absent. -/
theorem encode_decode_round_trip (y m d h mi s ms : Nat) (tz : Option (List Char))
    (hy : y ≤ 226980) (hm : m ≤ 11) (hd1 : 1 ≤ d) (hd : d ≤ 31) (hh : h ≤ 23)
    (hmi : mi ≤ 59) (hs : s ≤ 59) (hms : ms ≤ 999)
    (htz : tz = none ∨ tz = some "+00".data ∨ tz = some "-08".data ∨
      tz = some "+0530".data ∨ tz = some "+12".data) :
    BitDT.decode (some (BitDT.encode (from_primitives y m d h mi s ms tz))) =
      Except.ok (from_primitives y m d h mi s ms tz) ∧
    (tz = some "+00".data → get_timezone (from_primitives y m d h mi s ms tz) = none) := by
  have hkey : ∀ tz' : Option (List Char), get_timezone (from_primitives y m d h mi s ms tz') =
      format_timezone_offset (parse_timezone_offset tz') := fun _ => rfl
  have hTZ : ∃ tzS, get_timezone (from_primitives y m d h mi s ms tz) = tzS ∧
      (tzS = none ∨ ∃ sign digits, tzS = some (sign :: digits) ∧
        (sign = '+' ∨ sign = '-') ∧ (∀ c ∈ digits, c ∈ TIMEZONE_DIGITS) ∧ digits ≠ [] ∧
        is_valid_timezone (sign :: digits) = true) ∧
      parse_timezone_offset tzS = parse_timezone_offset tz := by
    rcases htz with rfl | rfl | rfl | rfl | rfl
    · exact ⟨none, (hkey _).trans (by decide), Or.inl rfl, by decide⟩
    · exact ⟨none, (hkey _).trans (by decide), Or.inl rfl, by decide⟩
    · exact ⟨some "-08".data, (hkey _).trans (by decide),
        Or.inr ⟨'-', "08".data, rfl, by decide, by decide, by decide, by decide⟩, rfl⟩
    · exact ⟨some "+0530".data, (hkey _).trans (by decide),
        Or.inr ⟨'+', "0530".data, rfl, by decide, by decide, by decide, by decide⟩, rfl⟩
    · exact ⟨some "+12".data, (hkey _).trans (by decide),
        Or.inr ⟨'+', "12".data, rfl, by decide, by decide, by decide, by decide⟩, rfl⟩
  obtain ⟨tzS, hgt, htzS, hoff⟩ := hTZ
  have hnorm : tz = some "+00".data → get_timezone (from_primitives y m d h mi s ms tz) =
      none := by
    rintro rfl
    exact (hkey _).trans (by decide)
  refine ⟨?_, hnorm⟩
  rw [decode_eq_pure]
  refine congrArg Except.ok ?_
  have hy1 : y / (61 * 61) < YEAR_CHARS.length := by rw [YEAR_CHARS_length]; omega
  have hy2 : y / 61 % 61 < YEAR_CHARS.length := by rw [YEAR_CHARS_length]; omega
  have hy3 : y % 61 < YEAR_CHARS.length := by rw [YEAR_CHARS_length]; omega
  have hMm : m < MONTHS.length := by rw [MONTHS_length]; omega
  have hDd : d - 1 < DAYS.length := by rw [DAYS_length]; omega
  have hg1 : YEAR_CHARS.getD (y / (61 * 61)) ' ' ≠ '0' := year_char_ne_zero (getD_mem hy1)
  have hg2 : YEAR_CHARS.getD (y / 61 % 61) ' ' ≠ '0' := year_char_ne_zero (getD_mem hy2)
  have hg3 : YEAR_CHARS.getD (y % 61) ' ' ≠ '0' := year_char_ne_zero (getD_mem hy3)
  have hfp : from_primitives y m d h mi s ms tzS = from_primitives y m d h mi s ms tz := by
    unfold from_primitives
    rw [hoff]
  by_cases hZ : mi = 0 ∧ s = 0 ∧ ms = 0
  · obtain ⟨rfl, rfl, rfl⟩ := hZ
    by_cases hH : h = 0
    · subst hH
      rw [encode_fp_date_only y m d tz hy hm hd1 hd, hgt,
        encode_date_time_date_only y m d tzS hy hm hd1 hd]
      have hfield : ∀ c ∈ YEAR_CHARS.getD (y / (61 * 61)) ' ' ::
          YEAR_CHARS.getD (y / 61 % 61) ' ' :: YEAR_CHARS.getD (y % 61) ' ' ::
          [MONTHS.getD m ' ', DAYS.getD (d - 1) ' ', '0', '0', '0', '0'],
          c ∈ allFieldChars := by
        intro c hc
        simp only [List.mem_cons, List.not_mem_nil, or_false] at hc
        rcases hc with rfl | rfl | rfl | rfl | rfl | rfl | rfl | rfl | rfl
        · exact mem_allFieldChars_year (getD_mem hy1)
        · exact mem_allFieldChars_year (getD_mem hy2)
        · exact mem_allFieldChars_year (getD_mem hy3)
        · exact mem_allFieldChars_months (getD_mem hMm)
        · exact mem_allFieldChars_days (getD_mem hDd)
        · exact mem_allFieldChars_zero
        · exact mem_allFieldChars_zero
        · exact mem_allFieldChars_zero
        · exact mem_allFieldChars_zero
      have hdec := decodePure_encoded (YEAR_CHARS.getD (y / (61 * 61)) ' ')
        (YEAR_CHARS.getD (y / 61 % 61) ' ') (YEAR_CHARS.getD (y % 61) ' ')
        [MONTHS.getD m ' ', DAYS.getD (d - 1) ' ', '0', '0', '0', '0'] tzS
        hfield hg1 hg2 hg3 (by simp) htzS
      calc decodePure (some (affixed (compress_zeros (yearChars y ++
              [MONTHS.getD m ' ', DAYS.getD (d - 1) ' ', '0', '0', '0'] ++ ['0'])) tzS))
          = walkFields (yearChars y ++
              [MONTHS.getD m ' ', DAYS.getD (d - 1) ' ', '0', '0', '0', '0']) tzS := hdec
        _ = from_primitives y m d 0 0 0 0 tz := by
            rw [walkFields_date_only y m d tzS hy hm hd1 hd, hfp]
    · rw [encode_fp_date_hour y m d h tz hy hm hd1 hd hh hH, hgt,
        encode_date_time_date_hour y m d h tzS hy hm hd1 hd hh]
      have hHh : h < HOURS.length := by rw [HOURS_length]; omega
      have hfield : ∀ c ∈ YEAR_CHARS.getD (y / (61 * 61)) ' ' ::
          YEAR_CHARS.getD (y / 61 % 61) ' ' :: YEAR_CHARS.getD (y % 61) ' ' ::
          [MONTHS.getD m ' ', DAYS.getD (d - 1) ' ', HOURS.getD h ' ', '0', '0', '0'],
          c ∈ allFieldChars := by
        intro c hc
        simp only [List.mem_cons, List.not_mem_nil, or_false] at hc
        rcases hc with rfl | rfl | rfl | rfl | rfl | rfl | rfl | rfl | rfl
        · exact mem_allFieldChars_year (getD_mem hy1)
        · exact mem_allFieldChars_year (getD_mem hy2)
        · exact mem_allFieldChars_year (getD_mem hy3)
        · exact mem_allFieldChars_months (getD_mem hMm)
        · exact mem_allFieldChars_days (getD_mem hDd)
        · exact mem_allFieldChars_hours (getD_mem hHh)
        · exact mem_allFieldChars_zero
        · exact mem_allFieldChars_zero
        · exact mem_allFieldChars_zero
      have hdec := decodePure_encoded (YEAR_CHARS.getD (y / (61 * 61)) ' ')
        (YEAR_CHARS.getD (y / 61 % 61) ' ') (YEAR_CHARS.getD (y % 61) ' ')
        [MONTHS.getD m ' ', DAYS.getD (d - 1) ' ', HOURS.getD h ' ', '0', '0', '0'] tzS
        hfield hg1 hg2 hg3 (by simp) htzS
      calc decodePure (some (affixed (compress_zeros (yearChars y ++
              [MONTHS.getD m ' ', DAYS.getD (d - 1) ' ', HOURS.getD h ' ', '0', '0'] ++
              ['0'])) tzS))
          = walkFields (yearChars y ++
              [MONTHS.getD m ' ', DAYS.getD (d - 1) ' ', HOURS.getD h ' ', '0', '0', '0'])
              tzS := hdec
        _ = from_primitives y m d h 0 0 0 tz := by
            rw [walkFields_date_hour y m d h tzS hy hm hd1 hd hh, hfp]
  · rw [encode_fp_full y m d h mi s ms tz hy hm hd1 hd hh hmi hs hms hZ, hgt]
    have hHh : h < HOURS.length := by rw [HOURS_length]; omega
    have hMi : mi < MINUTES.length := by rw [MINUTES_length]; omega
    have hSc : s < MINUTES.length := by rw [MINUTES_length]; omega
    by_cases hms0 : ms = 0
    · subst hms0
      simp only [Nat.cast_zero]
      rw [encode_date_time_full_ms0 y m d h mi s tzS hy hm hd1 hd hh hmi hs]
      have hfield : ∀ c ∈ YEAR_CHARS.getD (y / (61 * 61)) ' ' ::
          YEAR_CHARS.getD (y / 61 % 61) ' ' :: YEAR_CHARS.getD (y % 61) ' ' ::
          [MONTHS.getD m ' ', DAYS.getD (d - 1) ' ', HOURS.getD h ' ', MINUTES.getD mi ' ',
            MINUTES.getD s ' ', '0'], c ∈ allFieldChars := by
        intro c hc
        simp only [List.mem_cons, List.not_mem_nil, or_false] at hc
        rcases hc with rfl | rfl | rfl | rfl | rfl | rfl | rfl | rfl | rfl
        · exact mem_allFieldChars_year (getD_mem hy1)
        · exact mem_allFieldChars_year (getD_mem hy2)
        · exact mem_allFieldChars_year (getD_mem hy3)
        · exact mem_allFieldChars_months (getD_mem hMm)
        · exact mem_allFieldChars_days (getD_mem hDd)
        · exact mem_allFieldChars_hours (getD_mem hHh)
        · exact mem_allFieldChars_minutes (getD_mem hMi)
        · exact mem_allFieldChars_minutes (getD_mem hSc)
        · exact mem_allFieldChars_zero
      have hdec := decodePure_encoded (YEAR_CHARS.getD (y / (61 * 61)) ' ')
        (YEAR_CHARS.getD (y / 61 % 61) ' ') (YEAR_CHARS.getD (y % 61) ' ')
        [MONTHS.getD m ' ', DAYS.getD (d - 1) ' ', HOURS.getD h ' ', MINUTES.getD mi ' ',
          MINUTES.getD s ' ', '0'] tzS hfield hg1 hg2 hg3 (by simp) htzS
      calc decodePure (some (affixed (compress_zeros (yearChars y ++
              [MONTHS.getD m ' ', DAYS.getD (d - 1) ' ', HOURS.getD h ' ',
                MINUTES.getD mi ' ', MINUTES.getD s ' '] ++ ['0'])) tzS))
          = walkFields (yearChars y ++
              [MONTHS.getD m ' ', DAYS.getD (d - 1) ' ', HOURS.getD h ' ',
                MINUTES.getD mi ' ', MINUTES.getD s ' ', '0']) tzS := hdec
        _ = from_primitives y m d h mi s 0 tz := by
            rw [walkFields_full_ms0 y m d h mi s tzS hy hm hd1 hd hh hmi hs, hfp]
    · rw [encode_date_time_full_ms y m d h mi s ms tzS hy hm hd1 hd hh hmi hs hms hms0]
      have hF1 : ms / 25 < FIRST_CHAR.length := by rw [FIRST_CHAR_length]; omega
      have hS1 : ms % 25 < SECOND_CHAR.length := by rw [SECOND_CHAR_length]; omega
      have hfield : ∀ c ∈ YEAR_CHARS.getD (y / (61 * 61)) ' ' ::
          YEAR_CHARS.getD (y / 61 % 61) ' ' :: YEAR_CHARS.getD (y % 61) ' ' ::
          [MONTHS.getD m ' ', DAYS.getD (d - 1) ' ', HOURS.getD h ' ', MINUTES.getD mi ' ',
            MINUTES.getD s ' ', FIRST_CHAR.getD (ms / 25) ' ',
            SECOND_CHAR.getD (ms % 25) ' '], c ∈ allFieldChars := by
        intro c hc
        simp only [List.mem_cons, List.not_mem_nil, or_false] at hc
        rcases hc with rfl | rfl | rfl | rfl | rfl | rfl | rfl | rfl | rfl | rfl
        · exact mem_allFieldChars_year (getD_mem hy1)
        · exact mem_allFieldChars_year (getD_mem hy2)
        · exact mem_allFieldChars_year (getD_mem hy3)
        · exact mem_allFieldChars_months (getD_mem hMm)
        · exact mem_allFieldChars_days (getD_mem hDd)
        · exact mem_allFieldChars_hours (getD_mem hHh)
        · exact mem_allFieldChars_minutes (getD_mem hMi)
        · exact mem_allFieldChars_minutes (getD_mem hSc)
        · exact mem_allFieldChars_first (getD_mem hF1)
        · exact mem_allFieldChars_second (getD_mem hS1)
      have hdec := decodePure_encoded (YEAR_CHARS.getD (y / (61 * 61)) ' ')
        (YEAR_CHARS.getD (y / 61 % 61) ' ') (YEAR_CHARS.getD (y % 61) ' ')
        [MONTHS.getD m ' ', DAYS.getD (d - 1) ' ', HOURS.getD h ' ', MINUTES.getD mi ' ',
          MINUTES.getD s ' ', FIRST_CHAR.getD (ms / 25) ' ',
          SECOND_CHAR.getD (ms % 25) ' '] tzS hfield hg1 hg2 hg3 (by simp) htzS
      calc decodePure (some (affixed (compress_zeros (yearChars y ++
              [MONTHS.getD m ' ', DAYS.getD (d - 1) ' ', HOURS.getD h ' ',
                MINUTES.getD mi ' ', MINUTES.getD s ' '] ++
              [FIRST_CHAR.getD (ms / 25) ' ', SECOND_CHAR.getD (ms % 25) ' '])) tzS))
          = walkFields (yearChars y ++
              [MONTHS.getD m ' ', DAYS.getD (d - 1) ' ', HOURS.getD h ' ',
                MINUTES.getD mi ' ', MINUTES.getD s ' ', FIRST_CHAR.getD (ms / 25) ' ',
                SECOND_CHAR.getD (ms % 25) ' ']) tzS := hdec
        _ = from_primitives y m d h mi s ms tz := by
            rw [walkFields_full_ms y m d h mi s ms tzS hy hm hd1 hd hh hmi hs hms, hfp]

/-- Witness for C1 at year 2024, month 5, day 15, 10:30:45.123, timezone "+0530". -/
theorem encode_decode_round_trip_witness :
    ((2024 : Nat) ≤ 226980 ∧ (5 : Nat) ≤ 11 ∧ (1 : Nat) ≤ 15 ∧ (15 : Nat) ≤ 31 ∧
      (10 : Nat) ≤ 23 ∧ (30 : Nat) ≤ 59 ∧ (45 : Nat) ≤ 59 ∧ (123 : Nat) ≤ 999) ∧
    BitDT.decode (some (BitDT.encode
        (from_primitives 2024 5 15 10 30 45 123 (some "+0530".data)))) =
      Except.ok (from_primitives 2024 5 15 10 30 45 123 (some "+0530".data)) :=
  ⟨by decide, (encode_decode_round_trip 2024 5 15 10 30 45 123 (some "+0530".data)
      (by decide) (by decide) (by decide) (by decide) (by decide) (by decide) (by decide)
      (by decide) (Or.inr (Or.inr (Or.inr (Or.inl rfl))))).1⟩

/-! ### BitDTEpoch: explicit-base numeral encoding and smart decoding -/

/-- `BitDTEpoch.MODE_AUTO`. -/
def MODE_AUTO : Int := 0

/-- `BitDTEpoch.MODE_BASE36`. -/
def MODE_BASE36 : Int := 36

/-- `BitDTEpoch.MODE_FULL_BITDT`. -/
def MODE_FULL_BITDT : Int := -1

/-- Digit-accumulation loop of `BitDTEpoch._encode_base` (`while num > 0`),
producing the digits least-significant first exactly as the Python list does
before `reversed`; structural fuel bounds the iteration count (`num` strictly
decreases whenever it is positive and the fuel used is an upper bound on it). -/
def encodeBaseCore : Nat → Nat → Nat → List Char
  | 0, _, _ => []
  | fuel + 1, num, base =>
    if 0 < num then BASE36_CHARS.getD (num % base) ' ' :: encodeBaseCore fuel (num / base) base
    else []

/-- `BitDTEpoch._encode_base`: `"0"` for zero, otherwise an optional `-` sign
followed by the base-`base` digits most-significant first. -/
def encode_base (num : Int) (base : Nat) : List Char :=
  if num = 0 then ['0']
  else (if num < 0 then ['-'] else []) ++ (encodeBaseCore num.natAbs num.natAbs base).reverse

/-- `BitDTEpoch.to_bit_dt`, parametrized over `_to_full_bit_dt` and
`_to_smart_bit_dt` (both depend on the `datetime` library and the wall clock,
so they are taken as arguments; the surrounding `try/except` can only trigger
inside them, and the parameters are total Lean functions). -/
def to_bit_dt (fullEnc smartEnc : Int → Option (List Char) → List Char)
    (epoch_millis : Int) (timezone : Option (List Char)) (base : Int) : List Char :=
  if base = MODE_FULL_BITDT then fullEnc epoch_millis timezone
  else if base = MODE_AUTO then smartEnc epoch_millis timezone
  else if 2 ≤ base ∧ base ≤ 36 then encode_base epoch_millis base.toNat
  else smartEnc epoch_millis timezone

/-- One character step of `BitDTEpoch._guess_most_likely_base`, updating the
flag triple `(has_base36_only, has_base32_only, has_hex_only)`. -/
def guessStep (fl : Bool × Bool × Bool) (c : Char) : Bool × Bool × Bool :=
  if 'G' ≤ c ∧ c ≤ 'Z' then
    if 'W' ≤ c ∧ c ≤ 'Z' then (true, fl.2.1, false) else (fl.1, true, false)
  else if 'A' ≤ c ∧ c ≤ 'F' then fl
  else if '0' ≤ c ∧ c ≤ '9' then fl
  else (fl.1, fl.2.1, false)

/-- `BitDTEpoch._guess_most_likely_base`. -/
def guess_most_likely_base (encoded : List Char) : Nat :=
  let fl := (encoded.map Char.toUpper).foldl guessStep (false, false, true)
  if fl.2.2 then 16 else if fl.1 then 36 else if fl.2.1 then 32 else 36

/-- `BitDTEpoch._is_base_encoded`. -/
def is_base_encoded (s : List Char) : Bool :=
  if s.length < 6 ∨ 12 < s.length then false
  else (s.map Char.toUpper).all fun c => BASE36_CHARS.contains c

/-- Retry loop of `BitDTEpoch._decode_base_auto` over `[36, 32, 16, 10]`,
skipping the already-tried likely base; a failed `int(encoded, base)` is a
`ValueError` caught by the `except`, i.e. `none` here.  When every base fails
the loop falls through to `_from_full_bit_dt`, the `fullDec` parameter. -/
def tryBases (fullDec : List Char → Int) (encoded : List Char) (likely : Nat) :
    List Nat → Int
  | [] => fullDec encoded
  | b :: rest =>
    if b = likely then tryBases fullDec encoded likely rest
    else
      match pyInt encoded b with
      | some v => v
      | none => tryBases fullDec encoded likely rest

/-- `BitDTEpoch._decode_base_auto`. -/
def decode_base_auto (fullDec : List Char → Int) (encoded : List Char) : Int :=
  let likely := guess_most_likely_base encoded
  match pyInt encoded likely with
  | some v => v
  | none => tryBases fullDec encoded likely [36, 32, 16, 10]

/-- The AUTO path of `BitDTEpoch.from_bit_dt` (explicit base absent or out of
range): full-text decode first, then base detection. -/
def from_bit_dt_auto (fullDec : List Char → Int) (bitdt : List Char) : Int :=
  let full_result := fullDec bitdt
  if full_result ≠ -1 then full_result
  else if is_base_encoded bitdt then decode_base_auto fullDec bitdt
  else -1

/-- `BitDTEpoch.from_bit_dt`, parametrized over `_from_full_bit_dt` (which
depends on the `datetime` library and the wall clock, catches all its own
exceptions and returns -1 on failure, so it is taken as a total argument). -/
def from_bit_dt (fullDec : List Char → Int) (bitdt : List Char)
    (base : Option Int) : Int :=
  if bitdt = [] then -1
  else
    match base with
    | some b =>
      if 2 ≤ b ∧ b ≤ 36 then
        match pyInt bitdt b.toNat with
        | some v => v
        | none => -1
      else from_bit_dt_auto fullDec bitdt
    | none => from_bit_dt_auto fullDec bitdt

theorem BASE36_length : BASE36_CHARS.length = 36 := rfl

theorem BASE36_nodup : BASE36_CHARS.Nodup := by decide

theorem BASE36_toUpper : ∀ c ∈ BASE36_CHARS, c.toUpper = c := by decide

theorem BASE36_not_sign : ∀ c ∈ BASE36_CHARS, c ≠ '-' ∧ c ≠ '+' := by decide

theorem digitVal_getD (i : Nat) (h : i < 36) :
    digitVal (BASE36_CHARS.getD i ' ') = (i : Int) := by
  have h' : i < BASE36_CHARS.length := by rw [BASE36_length]; omega
  unfold digitVal
  rw [BASE36_toUpper _ (getD_mem h')]
  exact strFind_getD BASE36_nodup i h'

theorem encodeBaseCore_mem (base : Nat) (hb2 : 2 ≤ base) (hb36 : base ≤ 36) :
    ∀ fuel num, ∀ c ∈ encodeBaseCore fuel num base, c ∈ BASE36_CHARS := by
  intro fuel
  induction fuel with
  | zero => intro num c hc; simp [encodeBaseCore] at hc
  | succ fuel ih =>
    intro num c hc
    by_cases hpos : 0 < num
    · simp only [encodeBaseCore, if_pos hpos, List.mem_cons] at hc
      rcases hc with rfl | hc
      · have : num % base < BASE36_CHARS.length := by
          rw [BASE36_length]
          exact lt_of_lt_of_le (Nat.mod_lt _ (by omega)) hb36
        exact getD_mem this
      · exact ih (num / base) c hc
    · simp [encodeBaseCore, hpos] at hc

theorem encodeBaseCore_ne_nil (base num fuel : Nat) (hpos : 0 < num) (hf : 0 < fuel) :
    encodeBaseCore fuel num base ≠ [] := by
  obtain ⟨f, rfl⟩ : ∃ f, fuel = f + 1 := ⟨fuel - 1, by omega⟩
  simp [encodeBaseCore, hpos]

theorem encodeBaseCore_parse (base : Nat) (hb2 : 2 ≤ base) (hb36 : base ≤ 36) :
    ∀ fuel num, num ≤ fuel → ∀ acc : Int,
      ((encodeBaseCore fuel num base).reverse).foldlM (fun acc c =>
          if 0 ≤ digitVal c ∧ digitVal c < (base : Int) then some (acc * base + digitVal c)
          else none) acc =
        some (acc * (base : Int) ^ (encodeBaseCore fuel num base).length + num) := by
  intro fuel
  induction fuel with
  | zero =>
    intro num hn acc
    obtain rfl : num = 0 := by omega
    simp [encodeBaseCore]
  | succ fuel ih =>
    intro num hn acc
    by_cases hpos : 0 < num
    · rw [show encodeBaseCore (fuel + 1) num base =
          BASE36_CHARS.getD (num % base) ' ' :: encodeBaseCore fuel (num / base) base from
          by simp [encodeBaseCore, hpos]]
      rw [List.reverse_cons, List.foldlM_append]
      have hdiv : num / base ≤ fuel := by
        have := Nat.div_lt_self hpos (by omega : 1 < base)
        omega
      rw [ih (num / base) hdiv acc]
      simp only [Option.bind_eq_bind, Option.some_bind, List.foldlM_cons, List.foldlM_nil]
      rw [digitVal_getD _ (lt_of_lt_of_le (Nat.mod_lt _ (by omega)) hb36)]
      rw [if_pos ⟨Int.ofNat_nonneg _, by exact_mod_cast Nat.mod_lt num (by omega)⟩]
      simp only [Option.pure_def, Option.bind_eq_bind, Option.some_bind, List.length_cons]
      congr 1
      have hdm : ((base : Int)) * ((num / base : Nat) : Int) + ((num % base : Nat) : Int) =
          num := by
        exact_mod_cast Nat.div_add_mod num base
      rw [pow_succ]
      linear_combination hdm
    · obtain rfl : num = 0 := by omega
      simp [encodeBaseCore]

theorem pyInt_not_sign (c : Char) (rest : List Char) (base : Nat) (h1 : c ≠ '-')
    (h2 : c ≠ '+') : pyInt (c :: rest) base = parseDigits (c :: rest) base := by
  unfold pyInt
  split
  · rename_i heq
    simp_all
  · rename_i heq
    simp_all
  · rfl

theorem parseDigits_encodeBaseCore (base : Nat) (hb2 : 2 ≤ base) (hb36 : base ≤ 36)
    (num : Nat) (hpos : 0 < num) :
    parseDigits ((encodeBaseCore num num base).reverse) base = some (num : Int) := by
  have hne : encodeBaseCore num num base ≠ [] :=
    encodeBaseCore_ne_nil base num num hpos hpos
  unfold parseDigits
  rw [if_neg (by simpa using hne)]
  rw [encodeBaseCore_parse base hb2 hb36 num num le_rfl 0]
  simp

theorem encode_base_ne_nil (n : Int) (base : Nat) (hb2 : 2 ≤ base) :
    encode_base n base ≠ [] := by
  unfold encode_base
  by_cases h0 : n = 0
  · simp [h0]
  · rw [if_neg h0]
    by_cases hneg : n < 0
    · simp [hneg]
    · rw [if_neg hneg, List.nil_append]
      simpa using encodeBaseCore_ne_nil base n.natAbs n.natAbs (by omega) (by omega)

theorem pyInt_encode_base (n : Int) (base : Nat) (hb2 : 2 ≤ base) (hb36 : base ≤ 36) :
    pyInt (encode_base n base) base = some n := by
  rcases lt_trichotomy n 0 with hneg | rfl | hpos
  · unfold encode_base
    rw [if_neg (by omega), if_pos hneg, List.singleton_append]
    show (parseDigits ((encodeBaseCore n.natAbs n.natAbs base).reverse) base).map
      (fun v => -v) = some n
    rw [parseDigits_encodeBaseCore base hb2 hb36 n.natAbs (by omega)]
    simp only [Option.map_some']
    congr 1
    omega
  · unfold encode_base
    rw [if_pos rfl]
    rw [pyInt_not_sign '0' [] base (by decide) (by decide)]
    unfold parseDigits
    rw [if_neg (by simp)]
    simp only [List.foldlM_cons, List.foldlM_nil]
    rw [show digitVal '0' = 0 from by decide]
    rw [if_pos ⟨le_refl 0, by exact_mod_cast (by omega : 0 < base)⟩]
    simp
  · unfold encode_base
    rw [if_neg (by omega), if_neg (by omega), List.nil_append]
    have hne : (encodeBaseCore n.natAbs n.natAbs base).reverse ≠ [] := by
      simpa using encodeBaseCore_ne_nil base n.natAbs n.natAbs (by omega) (by omega)
    obtain ⟨d, ds, hds⟩ := List.exists_cons_of_ne_nil hne
    have hd : d ∈ BASE36_CHARS := by
      have hmem : d ∈ (encodeBaseCore n.natAbs n.natAbs base).reverse := by
        rw [hds]; exact List.mem_cons_self d ds
      rw [List.mem_reverse] at hmem
      exact encodeBaseCore_mem base hb2 hb36 _ _ d hmem
    rw [hds, pyInt_not_sign d ds base (BASE36_not_sign d hd).1 (BASE36_not_sign d hd).2,
      ← hds]
    rw [parseDigits_encodeBaseCore base hb2 hb36 n.natAbs (by omega)]
    congr 1
    omega

/-- C7: for every integer `n` and every base `b ∈ [2,36]`, encoding `n` with
`BitDTEpoch.to_bit_dt(n, timezone, b)` and decoding with the same explicit base
via `BitDTEpoch.from_bit_dt(text, b)` returns `n`; zero encodes as the literal
`"0"` and negative values carry a `-` prefix.  The instant 1718323456789 at
bases 2, 10, 16, 32, 36 is the special case `n = 1718323456789`. -/
theorem epoch_base_round_trip (fullEnc smartEnc : Int → Option (List Char) → List Char)
    (fullDec : List Char → Int) (n : Int) (b : Int) (hb2 : 2 ≤ b) (hb36 : b ≤ 36)
    (tz : Option (List Char)) :
    from_bit_dt fullDec (to_bit_dt fullEnc smartEnc n tz b) (some b) = n ∧
    to_bit_dt fullEnc smartEnc 0 tz b = ['0'] ∧
    (n < 0 → ∃ ds, to_bit_dt fullEnc smartEnc n tz b = '-' :: ds) := by
  have hto : ∀ m : Int, to_bit_dt fullEnc smartEnc m tz b = encode_base m b.toNat := by
    intro m
    unfold to_bit_dt MODE_FULL_BITDT MODE_AUTO
    rw [if_neg (by omega), if_neg (by omega), if_pos ⟨hb2, hb36⟩]
  have hb2' : 2 ≤ b.toNat := by omega
  have hb36' : b.toNat ≤ 36 := by omega
  refine ⟨?_, ?_, ?_⟩
  · rw [hto n]
    unfold from_bit_dt
    rw [if_neg (encode_base_ne_nil n b.toNat hb2')]
    dsimp only
    rw [if_pos ⟨hb2, hb36⟩, pyInt_encode_base n b.toNat hb2' hb36']
  · rw [hto 0]
    unfold encode_base
    rw [if_pos rfl]
  · intro hneg
    rw [hto n]
    unfold encode_base
    rw [if_neg (by omega), if_pos hneg]
    exact ⟨(encodeBaseCore n.natAbs n.natAbs b.toNat).reverse, List.singleton_append⟩

/-- Witness for C7 at `n = 1718323456789`, base 36. -/
theorem epoch_base_round_trip_witness :
    ((2 : Int) ≤ 36 ∧ (36 : Int) ≤ 36) ∧
    (from_bit_dt (fun _ => -1)
        (to_bit_dt (fun _ _ => []) (fun _ _ => []) 1718323456789 none 36) (some 36) =
        1718323456789 ∧
      to_bit_dt (fun _ _ => []) (fun _ _ => []) 0 none 36 = ['0'] ∧
      ((1718323456789 : Int) < 0 →
        ∃ ds, to_bit_dt (fun _ _ => []) (fun _ _ => []) 1718323456789 none 36 = '-' :: ds)) :=
  ⟨⟨by decide, by decide⟩,
    epoch_base_round_trip (fun _ _ => []) (fun _ _ => []) (fun _ => -1) 1718323456789 36
      (by decide) (by decide) none⟩

/-- C9's description of the guess: sequential character-class rules — pure
`0-9A-F` gives 16, any symbol in `G-V` gives 32, any symbol in `W-Z` gives 36,
default 36.  Second definition following the claim's words, to be compared with
`guess_most_likely_base` from the source. -/
def guess_claim (encoded : List Char) : Nat :=
  let s := encoded.map Char.toUpper
  if s.all (fun c => decide (('0' ≤ c ∧ c ≤ '9') ∨ ('A' ≤ c ∧ c ≤ 'F'))) then 16
  else if s.any (fun c => decide ('G' ≤ c ∧ c ≤ 'V')) then 32
  else if s.any (fun c => decide ('W' ≤ c ∧ c ≤ 'Z')) then 36
  else 36

/-- C9's retry loop: bases 36, 32, 16, 10 in order, no skipping, then the
full-text decode as a last resort.  Follows the claim's words. -/
def tryBasesClaim (fullDec : List Char → Int) (encoded : List Char) : List Nat → Int
  | [] => fullDec encoded
  | b :: rest =>
    match pyInt encoded b with
    | some v => v
    | none => tryBasesClaim fullDec encoded rest

/-- C9's description of the whole AUTO flow, following the claim's words:
full-text decode first; on failure, iff the text has length 6 to 12 and
consists of base-36 symbols (case-insensitive), guess per `guess_claim`, try
the guessed base, then retry 36, 32, 16, 10, then full-text decode again;
otherwise -1. -/
def from_bit_dt_claim (fullDec : List Char → Int) (s : List Char) : Int :=
  if fullDec s ≠ -1 then fullDec s
  else if 6 ≤ s.length ∧ s.length ≤ 12 ∧
      (s.map Char.toUpper).all (fun c => BASE36_CHARS.contains c) then
    match pyInt s (guess_claim s) with
    | some v => v
    | none => tryBasesClaim fullDec s [36, 32, 16, 10]
  else -1

theorem strFind_ne_of_mem {l : List Char} {c : Char} (h : c ∈ l) : strFind l c ≠ -1 := by
  induction l with
  | nil => simp at h
  | cons x xs ih =>
    by_cases hx : x = c
    · simp [strFind, hx]
    · rcases List.mem_cons.mp h with h1 | h1
      · exact absurd h1.symm hx
      · have hne := ih h1
        rcases strFind_bounds xs c with hb | hb
        · exact absurd hb hne
        · simp only [strFind, if_neg hx, if_neg hne]
          omega

theorem digitVal_of_base36 (c : Char) (h : c.toUpper ∈ BASE36_CHARS) :
    0 ≤ digitVal c ∧ digitVal c < (36 : Int) := by
  unfold digitVal
  have hne : strFind BASE36_CHARS c.toUpper ≠ -1 := strFind_ne_of_mem h
  rcases strFind_bounds BASE36_CHARS c.toUpper with h1 | h1
  · exact absurd h1 hne
  · refine ⟨h1.1, ?_⟩
    have := h1.2
    rw [BASE36_length] at this
    exact_mod_cast this

theorem digitVal_WZ (c : Char) (h : c.toUpper ∈ BASE36_CHARS)
    (hwz : 'W' ≤ c.toUpper ∧ c.toUpper ≤ 'Z') : (32 : Int) ≤ digitVal c := by
  unfold digitVal
  have hall : ∀ u ∈ BASE36_CHARS, ('W' ≤ u ∧ u ≤ 'Z') →
      (32 : Int) ≤ strFind BASE36_CHARS u := by decide
  exact hall _ h hwz

theorem parseDigits_foldlM_total (base : Nat) :
    ∀ s : List Char, (∀ c ∈ s, 0 ≤ digitVal c ∧ digitVal c < (base : Int)) →
    ∀ acc : Int, ∃ v, (s.foldlM (fun acc c =>
        if 0 ≤ digitVal c ∧ digitVal c < (base : Int) then some (acc * base + digitVal c)
        else none) acc) = some v := by
  intro s
  induction s with
  | nil => intro _ acc; exact ⟨acc, rfl⟩
  | cons c t ih =>
    intro h acc
    obtain ⟨v, hv⟩ := ih (fun d hd => h d (List.mem_cons_of_mem c hd))
      (acc * base + digitVal c)
    refine ⟨v, ?_⟩
    rw [List.foldlM_cons, if_pos (h c (List.mem_cons_self c t))]
    simpa [Option.bind_eq_bind, Option.some_bind] using hv

theorem parseDigits_foldlM_none (base : Nat) :
    ∀ s : List Char, (∃ c ∈ s, ¬(0 ≤ digitVal c ∧ digitVal c < (base : Int))) →
    ∀ acc : Int, (s.foldlM (fun acc c =>
        if 0 ≤ digitVal c ∧ digitVal c < (base : Int) then some (acc * base + digitVal c)
        else none) acc) = none := by
  intro s
  induction s with
  | nil => rintro ⟨c, hc, _⟩ _; simp at hc
  | cons c t ih =>
    rintro ⟨d, hd, hbad⟩ acc
    rw [List.foldlM_cons]
    by_cases hcv : 0 ≤ digitVal c ∧ digitVal c < (base : Int)
    · rw [if_pos hcv]
      rcases List.mem_cons.mp hd with rfl | hdt
      · exact absurd hcv hbad
      · simp only [Option.bind_eq_bind, Option.some_bind]
        exact ih ⟨d, hdt, hbad⟩ _
    · rw [if_neg hcv]
      simp

theorem not_sign_of_base36 (c : Char) (h : c.toUpper ∈ BASE36_CHARS) :
    c ≠ '-' ∧ c ≠ '+' := by
  constructor
  · rintro rfl; exact absurd h (by decide)
  · rintro rfl; exact absurd h (by decide)

theorem pyInt36_some (s : List Char) (hne : s ≠ [])
    (h : ∀ c ∈ s, c.toUpper ∈ BASE36_CHARS) : ∃ v, pyInt s 36 = some v := by
  obtain ⟨c, rest, rfl⟩ := List.exists_cons_of_ne_nil hne
  have hc := not_sign_of_base36 c (h c (List.mem_cons_self c rest))
  rw [pyInt_not_sign c rest 36 hc.1 hc.2]
  unfold parseDigits
  rw [if_neg (by simp)]
  exact parseDigits_foldlM_total 36 (c :: rest)
    (fun d hd => by exact_mod_cast digitVal_of_base36 d (h d hd)) 0

theorem pyInt_none_of_WZ (base : Nat) (hb : (base : Int) ≤ 32) (s : List Char)
    (hne : s ≠ []) (h : ∀ c ∈ s, c.toUpper ∈ BASE36_CHARS)
    (hbad : ∃ c ∈ s, 'W' ≤ c.toUpper ∧ c.toUpper ≤ 'Z') : pyInt s base = none := by
  obtain ⟨c, rest, rfl⟩ := List.exists_cons_of_ne_nil hne
  have hc := not_sign_of_base36 c (h c (List.mem_cons_self c rest))
  rw [pyInt_not_sign c rest base hc.1 hc.2]
  unfold parseDigits
  rw [if_neg (by simp)]
  obtain ⟨d, hd, hwz⟩ := hbad
  refine parseDigits_foldlM_none base (c :: rest) ⟨d, hd, fun hv => ?_⟩ 0
  have := digitVal_WZ d (h d hd) hwz
  omega

theorem guessStep_eq (fl : Bool × Bool × Bool) (c : Char) :
    guessStep fl c =
      (fl.1 || decide ('W' ≤ c ∧ c ≤ 'Z'),
       fl.2.1 || (decide ('G' ≤ c ∧ c ≤ 'Z') && !decide ('W' ≤ c ∧ c ≤ 'Z')),
       fl.2.2 && ((decide ('A' ≤ c ∧ c ≤ 'F') || decide ('0' ≤ c ∧ c ≤ '9')) &&
         !decide ('G' ≤ c ∧ c ≤ 'Z'))) := by
  have hWG : ('W' ≤ c ∧ c ≤ 'Z') → ('G' ≤ c ∧ c ≤ 'Z') := fun h =>
    ⟨le_trans (by decide : ('G' : Char) ≤ 'W') h.1, h.2⟩
  unfold guessStep
  split_ifs with h1 h2 h3 h4
  · simp [decide_eq_true h1, decide_eq_true h2]
  · simp [decide_eq_true h1, decide_eq_false h2]
  · simp [decide_eq_false h1, decide_eq_false (fun hw => h1 (hWG hw)), decide_eq_true h3]
  · simp [decide_eq_false h1, decide_eq_false (fun hw => h1 (hWG hw)), decide_eq_false h3,
      decide_eq_true h4]
  · simp [decide_eq_false h1, decide_eq_false (fun hw => h1 (hWG hw)), decide_eq_false h3,
      decide_eq_false h4]

theorem guessFoldl (l : List Char) : ∀ fl : Bool × Bool × Bool,
    l.foldl guessStep fl =
      (fl.1 || l.any (fun c => decide ('W' ≤ c ∧ c ≤ 'Z')),
       fl.2.1 || l.any (fun c => decide ('G' ≤ c ∧ c ≤ 'Z') && !decide ('W' ≤ c ∧ c ≤ 'Z')),
       fl.2.2 && l.all (fun c => (decide ('A' ≤ c ∧ c ≤ 'F') || decide ('0' ≤ c ∧ c ≤ '9')) &&
         !decide ('G' ≤ c ∧ c ≤ 'Z'))) := by
  induction l with
  | nil => intro fl; simp
  | cons c t ih =>
    intro fl
    rw [List.foldl_cons, ih (guessStep fl c), guessStep_eq]
    simp [List.any_cons, List.all_cons, Bool.or_assoc, Bool.and_assoc]

theorem guess_code_eq (s : List Char) :
    guess_most_likely_base s =
      (if (s.map Char.toUpper).all (fun c => (decide ('A' ≤ c ∧ c ≤ 'F') ||
            decide ('0' ≤ c ∧ c ≤ '9')) && !decide ('G' ≤ c ∧ c ≤ 'Z')) then 16
       else if (s.map Char.toUpper).any (fun c => decide ('W' ≤ c ∧ c ≤ 'Z')) then 36
       else if (s.map Char.toUpper).any (fun c => decide ('G' ≤ c ∧ c ≤ 'Z') &&
            !decide ('W' ≤ c ∧ c ≤ 'Z')) then 32
       else 36) := by
  unfold guess_most_likely_base
  rw [guessFoldl]
  simp only [Bool.false_or, Bool.true_and]

theorem list_any_congr {l : List Char} {p q : Char → Bool} (h : ∀ c ∈ l, p c = q c) :
    l.any p = l.any q := by
  induction l with
  | nil => rfl
  | cons c t ih =>
    simp only [List.any_cons, h c (List.mem_cons_self c t),
      ih (fun d hd => h d (List.mem_cons_of_mem c hd))]

theorem list_all_congr {l : List Char} {p q : Char → Bool} (h : ∀ c ∈ l, p c = q c) :
    l.all p = l.all q := by
  induction l with
  | nil => rfl
  | cons c t ih =>
    simp only [List.all_cons, h c (List.mem_cons_self c t),
      ih (fun d hd => h d (List.mem_cons_of_mem c hd))]

theorem hexEqMem : ∀ c ∈ BASE36_CHARS,
    ((decide ('A' ≤ c ∧ c ≤ 'F') || decide ('0' ≤ c ∧ c ≤ '9')) &&
        !decide ('G' ≤ c ∧ c ≤ 'Z')) =
      decide (('0' ≤ c ∧ c ≤ '9') ∨ ('A' ≤ c ∧ c ≤ 'F')) := by decide

theorem gvEqMem : ∀ c ∈ BASE36_CHARS,
    (decide ('G' ≤ c ∧ c ≤ 'Z') && !decide ('W' ≤ c ∧ c ≤ 'Z')) =
      decide ('G' ≤ c ∧ c ≤ 'V') := by decide

theorem tryBases_36 (fullDec : List Char → Int) (s : List Char) (likely : Nat)
    (hlik : likely ≠ 36) (v : Int) (h36 : pyInt s 36 = some v) :
    tryBases fullDec s likely [36, 32, 16, 10] = v := by
  simp only [tryBases]
  rw [if_neg (fun h => hlik h.symm), h36]

theorem tryBasesClaim_36 (fullDec : List Char → Int) (s : List Char) (v : Int)
    (h36 : pyInt s 36 = some v) :
    tryBasesClaim fullDec s [36, 32, 16, 10] = v := by
  simp only [tryBasesClaim]
  rw [h36]

/-- C9: with no explicit base, `BitDTEpoch.from_bit_dt` behaves exactly as the
claim describes: full-text decode first; on failure, iff the text has length 6
to 12 and consists of base-36 symbols (case-insensitive), guess a base from the
character classes (pure `0-9A-F` gives 16, any `G-V` gives 32, any `W-Z` gives
36, default 36), try it, retry 36, 32, 16, 10, then full-text decode as a last
resort; otherwise -1.  The guess precedence in the source differs (a `W-Z`
symbol wins over `G-V`), but the results coincide because base 36 always parses
such a string while base 32 fails whenever a `W-Z` symbol is present. -/
theorem from_bit_dt_auto_matches_claim (fullDec : List Char → Int)
    (h0 : fullDec [] = -1) (s : List Char) :
    from_bit_dt fullDec s none = from_bit_dt_claim fullDec s := by
  by_cases hnil : s = []
  · subst hnil
    unfold from_bit_dt from_bit_dt_claim
    rw [if_pos rfl]
    simp [h0]
  · unfold from_bit_dt
    rw [if_neg hnil]
    dsimp only
    unfold from_bit_dt_auto from_bit_dt_claim
    dsimp only
    by_cases hfull : fullDec s ≠ -1
    · rw [if_pos hfull, if_pos hfull]
    · rw [if_neg hfull, if_neg hfull]
      have hcond : is_base_encoded s = true ↔
          (6 ≤ s.length ∧ s.length ≤ 12 ∧
            ((s.map Char.toUpper).all fun c => BASE36_CHARS.contains c) = true) := by
        unfold is_base_encoded
        constructor
        · intro h
          by_cases hlen : s.length < 6 ∨ 12 < s.length
          · rw [if_pos hlen] at h
            simp at h
          · rw [if_neg hlen] at h
            exact ⟨by omega, by omega, h⟩
        · rintro ⟨hl1, hl2, h3⟩
          rw [if_neg (by omega)]
          exact h3
      by_cases henc : is_base_encoded s = true
      · rw [if_pos henc, if_pos (hcond.mp henc)]
        obtain ⟨hl1, hl2, hall⟩ := hcond.mp henc
        have hchars : ∀ c ∈ s, c.toUpper ∈ BASE36_CHARS := by
          intro c hc
          have hmem : c.toUpper ∈ s.map Char.toUpper := List.mem_map_of_mem _ hc
          have hx := List.all_eq_true.mp hall _ hmem
          simpa using hx
        obtain ⟨v36, hv36⟩ := pyInt36_some s hnil hchars
        have hmemU : ∀ c ∈ s.map Char.toUpper, c ∈ BASE36_CHARS := by
          intro c hc
          obtain ⟨d, hd, rfl⟩ := List.mem_map.mp hc
          exact hchars d hd
        unfold decode_base_auto
        dsimp only
        rw [guess_code_eq]
        rw [list_all_congr (fun c hc => hexEqMem c (hmemU c hc))]
        rw [list_any_congr (fun c hc => gvEqMem c (hmemU c hc))]
        unfold guess_claim
        dsimp only
        by_cases hHX : ((s.map Char.toUpper).all
            fun c => decide (('0' ≤ c ∧ c ≤ '9') ∨ ('A' ≤ c ∧ c ≤ 'F'))) = true
        · rw [if_pos hHX, if_pos hHX]
          cases hp : pyInt s 16 with
          | some v => rfl
          | none =>
            rw [tryBases_36 fullDec s 16 (by decide) v36 hv36,
              tryBasesClaim_36 fullDec s v36 hv36]
        · rw [if_neg hHX, if_neg hHX]
          by_cases hWZ : ((s.map Char.toUpper).any
              fun c => decide ('W' ≤ c ∧ c ≤ 'Z')) = true
          · rw [if_pos hWZ, hv36]
            by_cases hGV : ((s.map Char.toUpper).any
                fun c => decide ('G' ≤ c ∧ c ≤ 'V')) = true
            · rw [if_pos hGV]
              have h32 : pyInt s 32 = none := by
                refine pyInt_none_of_WZ 32 (by norm_num) s hnil hchars ?_
                obtain ⟨d, hd, hdp⟩ := List.any_eq_true.mp hWZ
                obtain ⟨e, he, rfl⟩ := List.mem_map.mp hd
                exact ⟨e, he, of_decide_eq_true hdp⟩
              rw [h32, tryBasesClaim_36 fullDec s v36 hv36]
            · rw [if_neg hGV, if_pos hWZ, hv36]
          · rw [if_neg hWZ]
            by_cases hGV : ((s.map Char.toUpper).any
                fun c => decide ('G' ≤ c ∧ c ≤ 'V')) = true
            · rw [if_pos hGV, if_pos hGV]
              cases hp : pyInt s 32 with
              | some v => rfl
              | none =>
                rw [tryBases_36 fullDec s 32 (by decide) v36 hv36,
                  tryBasesClaim_36 fullDec s v36 hv36]
            · rw [if_neg hGV, if_neg hGV, if_neg hWZ]
              rw [hv36]
      · rw [if_neg henc, if_neg (fun hc => henc (hcond.mpr hc))]

/-- Witness for C9 at the input "1A2B3C" with a full-text decoder that always
fails. -/
theorem from_bit_dt_auto_matches_claim_witness :
    (fun _ : List Char => (-1 : Int)) [] = -1 ∧
    from_bit_dt (fun _ => -1) "1A2B3C".data none =
      from_bit_dt_claim (fun _ => -1) "1A2B3C".data :=
  ⟨rfl, from_bit_dt_auto_matches_claim (fun _ => -1) rfl "1A2B3C".data⟩
